import Mathlib

/-!
A shallow embedding of the evacuation simulation in `main.py` (an agent-based
evacuation model) together with proofs about its behavior.

Modelling conventions:
* Grid positions are integer pairs; bounds checks mirror
  `mesa.space.MultiGrid.out_of_bounds` (torus = False).
* The grid occupancy index is derived: an agent's `pos` field is `some p`
  while it is placed on the grid and `none` after `grid.remove_agent`
  (mesa sets `agent.pos = None` on removal).  Exit markers are the static
  `exits` list; a cell's contents are the exit markers at that cell plus
  every evacuee whose `pos` equals it, so `len(cell_contents) == 0`
  becomes `cell_is_empty`.
* Wall-clock reads (`time.time()`) become an explicit `now : ℤ` argument,
  taken once per tick; the model's `start_time` is the clock value passed
  to the constructor.
* The seeded random source (out of scope per the model's interface: a
  uniform choice-from-list primitive with deterministic seeding) is
  embedded as a linear-congruential state `rand : ℕ` threaded through the
  model; a draw picks index `rand % length` and advances the state.
* `mesa.Model.__init__` sets `self.running = True`; `GridModel` never
  writes that attribute again, which the embedding mirrors with a
  `running` field.
-/

abbrev Pos := ℤ × ℤ

inductive AgState where
  | HELP
  | FOLLOWING
  | EVACUATING
deriving DecidableEq

/-- One `EvacAgent` from `main.py`, with `pos = none` once removed from the grid. -/
structure EvacAgent where
  id : ℕ
  pos : Option Pos
  emergency_triggered : Bool
  direction : Option Pos
  state : AgState
  following_agent : Option ℕ
  follow_start_time : ℤ
  asked_memory : List (ℕ × ℤ)
deriving DecidableEq

/-- The `GridModel` state: grid, monitor, exit registry and active pool. -/
structure GridModel where
  grid_size : ℤ
  running : Bool
  emergency : Bool
  start_time : ℤ
  emergency_time : ℤ
  monitor_triggered : Bool
  exits : List Pos
  agents : List EvacAgent
  active_ids : List ℕ
  rand : ℕ
deriving DecidableEq

def NUM_AGENTS : ℕ := 10

def GRID_SIZE : ℤ := 10

def SEED : ℕ := 42

def EMERGENCY_TIME : ℤ := 10

/-- Linear-congruential step standing in for the seeded random source. -/
def rngNext (s : ℕ) : ℕ := (s * 1103515245 + 12345) % 2 ^ 31

/-- `random.choice` on a non-empty list: pick an element, advance the rng state. -/
def rngChoose {α : Type} (s : ℕ) (l : List α) (d : α) : α × ℕ :=
  (l.getD (s % l.length) d, rngNext s)

/-- `mesa.space._Grid.out_of_bounds` for a square non-torus grid. -/
def out_of_bounds (m : GridModel) (p : Pos) : Prop :=
  p.1 < 0 ∨ m.grid_size ≤ p.1 ∨ p.2 < 0 ∨ m.grid_size ≤ p.2

instance (m : GridModel) (p : Pos) : Decidable (out_of_bounds m p) := by
  unfold out_of_bounds; infer_instance

/-- `EvacAgent.is_exit_cell`: the position matches some exit marker. -/
def is_exit_cell (m : GridModel) (p : Pos) : Prop := p ∈ m.exits

instance (m : GridModel) (p : Pos) : Decidable (is_exit_cell m p) := by
  unfold is_exit_cell; infer_instance

/-- `len(grid.get_cell_list_contents(p)) == 0`: no exit marker and no placed evacuee at `p`. -/
def cell_is_empty (m : GridModel) (p : Pos) : Prop :=
  p ∉ m.exits ∧ ∀ a ∈ m.agents, a.pos ≠ some p

instance (m : GridModel) (p : Pos) : Decidable (cell_is_empty m p) := by
  unfold cell_is_empty; infer_instance

def manhattan (p q : Pos) : ℕ := (p.1 - q.1).natAbs + (p.2 - q.2).natAbs

/-- `EvacAgent.get_visible_exits`: exits within the bounding box of the given radius. -/
def get_visible_exits (m : GridModel) (p : Pos) (radius : ℕ := 3) : List Pos :=
  m.exits.filter (fun e => decide ((e.1 - p.1).natAbs ≤ radius ∧ (e.2 - p.2).natAbs ≤ radius))

/-- `EvacAgent.closest_exit`: Python's `min` by Manhattan distance (first minimum wins). -/
def closest_exit (p : Pos) : List Pos → Option Pos
  | [] => none
  | e :: es => some (es.foldl (fun best c => if manhattan c p < manhattan best p then c else best) e)

def findAgent (m : GridModel) (aid : ℕ) : Option EvacAgent :=
  m.agents.find? (fun a => decide (a.id = aid))

def posOf (m : GridModel) (aid : ℕ) : Option Pos := (findAgent m aid).bind (·.pos)

def stateOf (m : GridModel) (aid : ℕ) : Option AgState := (findAgent m aid).map (·.state)

def flagOf (m : GridModel) (aid : ℕ) : Option Bool :=
  (findAgent m aid).map (·.emergency_triggered)

def followingOf (m : GridModel) (aid : ℕ) : Option (Option ℕ) :=
  (findAgent m aid).map (·.following_agent)

/-- Update the (unique) agent with the given id in place. -/
def updAgent (m : GridModel) (aid : ℕ) (f : EvacAgent → EvacAgent) : GridModel :=
  { m with agents := m.agents.map (fun a => if a.id = aid then f a else a) }

/-- `grid.move_agent(self, p)`. -/
def move_agent (m : GridModel) (aid : ℕ) (p : Pos) : GridModel :=
  updAgent m aid (fun a => { a with pos := some p })

/-- `grid.remove_agent(self)`: off the grid, `pos` becomes `none`. -/
def grid_remove (m : GridModel) (aid : ℕ) : GridModel :=
  updAgent m aid (fun a => { a with pos := none })

/-- `EvacAgent.check_exit`: on an exit marker, leave the grid and the active pool at once. -/
def check_exit (m : GridModel) (aid : ℕ) : Bool × GridModel :=
  match findAgent m aid with
  | none => (false, m)
  | some a =>
    match a.pos with
    | none => (false, m)
    | some p =>
      if p ∈ m.exits then
        (true, { grid_remove m aid with active_ids := m.active_ids.erase aid })
      else (false, m)

/-- The up-to-two greedy candidates of `EvacAgent.move_towards`, x-step first. -/
def move_candidates (p t : Pos) : List Pos :=
  (if t.1 ≠ p.1 then [(p.1 + (if p.1 < t.1 then 1 else -1), p.2)] else []) ++
  (if t.2 ≠ p.2 then [(p.1, p.2 + (if p.2 < t.2 then 1 else -1))] else [])

/-- The acceptance test of `move_towards`: in bounds and (empty or an exit cell). -/
def accept (m : GridModel) (c : Pos) : Prop :=
  ¬ out_of_bounds m c ∧ (cell_is_empty m c ∨ is_exit_cell m c)

instance (m : GridModel) (c : Pos) : Decidable (accept m c) := by
  unfold accept; infer_instance

/-- The candidate loop of `move_towards`: move to the first accepted candidate
and immediately run `check_exit`. -/
def try_candidates (m : GridModel) (aid : ℕ) : List Pos → Bool × GridModel
  | [] => (false, m)
  | c :: cs =>
    if accept m c then (true, (check_exit (move_agent m aid c) aid).2)
    else try_candidates m aid cs

/-- `EvacAgent.move_towards`. -/
def move_towards (m : GridModel) (aid : ℕ) (t : Pos) : Bool × GridModel :=
  match findAgent m aid with
  | none => (false, m)
  | some a =>
    match a.pos with
    | none => (false, m)
    | some p => try_candidates m aid (move_candidates p t)

def orth_neighbors (p : Pos) : List Pos :=
  [(p.1 + 1, p.2), (p.1 - 1, p.2), (p.1, p.2 + 1), (p.1, p.2 - 1)]

/-- The in-bounds, currently empty orthogonal neighbors used by the fallback step. -/
def free_neighbors (m : GridModel) (p : Pos) : List Pos :=
  (orth_neighbors p).filter (fun n => decide (¬ out_of_bounds m n ∧ cell_is_empty m n))

/-- `EvacAgent.best_free_step_towards_exit`: Python `min` by Manhattan distance to
the exit over the free neighbors, `None` when all are blocked. -/
def best_free_step_towards_exit (m : GridModel) (p t : Pos) : Option Pos :=
  match free_neighbors m p with
  | [] => none
  | f :: fs => some (fs.foldl (fun best c => if manhattan c t < manhattan best t then c else best) f)

def directions : List Pos := [(0, 1), (0, -1), (1, 0), (-1, 0)]

/-- `EvacAgent.pick_random_direction`. -/
def pick_random_direction (m : GridModel) (aid : ℕ) : GridModel :=
  let dr := rngChoose m.rand directions (0, 1)
  { updAgent m aid (fun a => { a with direction := some dr.1 }) with rand := dr.2 }

/-- The walking half of `do_random_constant_move`: step in the stored direction
when the target cell is in bounds and empty, otherwise re-roll the direction. -/
def constant_move_attempt (m : GridModel) (aid : ℕ) : GridModel :=
  match findAgent m aid with
  | none => m
  | some a =>
    match a.direction, a.pos with
    | some d, some p =>
      if ¬ out_of_bounds m (p.1 + d.1, p.2 + d.2) ∧ cell_is_empty m (p.1 + d.1, p.2 + d.2) then
        move_agent m aid (p.1 + d.1, p.2 + d.2)
      else pick_random_direction m aid
    | _, _ => m

/-- `EvacAgent.do_random_constant_move`: pick a direction when none is stored,
then keep walking in the stored direction. -/
def do_random_constant_move (m : GridModel) (aid : ℕ) : GridModel :=
  constant_move_attempt
    (match findAgent m aid with
     | some a => if a.direction = none then pick_random_direction m aid else m
     | none => m) aid

/-- `grid.get_neighborhood(pos, moore=False, radius=1)`: in-bounds Von Neumann cells. -/
def vn_neighborhood (m : GridModel) (p : Pos) : List Pos :=
  (orth_neighbors p).filter (fun n => decide (¬ out_of_bounds m n))

/-- The pre-trigger branch of `EvacAgent.step`: move to a random empty neighbor cell. -/
def wander_phase (m : GridModel) (aid : ℕ) (p : Pos) : GridModel :=
  match (vn_neighborhood m p).filter (fun n => decide (cell_is_empty m n)) with
  | [] => m
  | v :: vs =>
    let cr := rngChoose m.rand (v :: vs) v
    { move_agent m aid cr.1 with rand := cr.2 }

/-- The agents returned by `grid.get_neighbors(pos, moore=True, radius=5,
include_center=False)` that pass the `isinstance(neighbor, EvacAgent)` test:
placed evacuees within Chebyshev distance 5, excluding the center cell. -/
def moore_neighbors (m : GridModel) (p : Pos) : List EvacAgent :=
  m.agents.filter (fun a =>
    match a.pos with
    | some q => decide (q ≠ p ∧ (q.1 - p.1).natAbs ≤ 5 ∧ (q.2 - p.2).natAbs ≤ 5)
    | none => false)

/-- `neighbor.get_visible_exits()` is non-empty. -/
def has_visible_exit (m : GridModel) (a : EvacAgent) : Prop :=
  match a.pos with
  | some q => get_visible_exits m q ≠ []
  | none => False

instance (m : GridModel) (a : EvacAgent) : Decidable (has_visible_exit m a) := by
  unfold has_visible_exit; cases a.pos <;> simp <;> infer_instance

/-- The cooldown test of `ask_neighbors`: active, and last asked (0 when never
asked) more than `COOLDOWN = 3` seconds ago. -/
def qualifies (m : GridModel) (now : ℤ) (mem : List (ℕ × ℤ)) (a : EvacAgent) : Prop :=
  a.id ∈ m.active_ids ∧ 3 < now - ((mem.lookup a.id).getD 0)

instance (m : GridModel) (now : ℤ) (mem : List (ℕ × ℤ)) (a : EvacAgent) :
    Decidable (qualifies m now mem a) := by
  unfold qualifies; infer_instance

/-- The scan loop of `ask_neighbors`: record every qualifying candidate in the
cooldown ledger (newest entry shadows older ones for `lookup`), stop at the
first qualifying candidate that can see an exit. -/
def ask_scan (m : GridModel) (now : ℤ) :
    List (ℕ × ℤ) → List EvacAgent → Option ℕ × List (ℕ × ℤ)
  | mem, [] => (none, mem)
  | mem, n :: ns =>
    if qualifies m now mem n then
      let mem' := (n.id, now) :: mem
      if has_visible_exit m n then (some n.id, mem')
      else ask_scan m now mem' ns
    else ask_scan m now mem ns

/-- `EvacAgent.ask_neighbors`. -/
def ask_neighbors (m : GridModel) (p : Pos) (now : ℤ) (mem : List (ℕ × ℤ)) :
    Option ℕ × List (ℕ × ℤ) :=
  ask_scan m now mem (moore_neighbors m p)

/-- The `FOLLOWING` validity checks at the top of `EvacAgent.step`: a 10-second
timeout or a guide that left the active pool reverts to `HELP` and clears the
target (`None not in active_agents` also reverts). -/
def follow_checks (now : ℤ) (m : GridModel) (aid : ℕ) : GridModel :=
  match findAgent m aid with
  | none => m
  | some a =>
    if a.state = AgState.FOLLOWING then
      if 10 < now - a.follow_start_time then
        updAgent m aid (fun b => { b with state := AgState.HELP, following_agent := none })
      else
        match a.following_agent with
        | some g =>
          if g ∈ m.active_ids then m
          else updAgent m aid (fun b => { b with state := AgState.HELP, following_agent := none })
        | none => updAgent m aid (fun b => { b with state := AgState.HELP, following_agent := none })
    else m

/-- The `EVACUATING` dispatch branch: direct greedy move, else fallback step
followed by `check_exit`.  (On an empty `visible` list the Python source
raises `ValueError` in `min`; the embedding leaves the model unchanged.) -/
def evac_phase (m : GridModel) (aid : ℕ) (p : Pos) (visible : List Pos) : GridModel :=
  match closest_exit p visible with
  | none => m
  | some e =>
    let r := move_towards m aid e
    if r.1 then r.2
    else
      match best_free_step_towards_exit m p e with
      | some c => (check_exit (move_agent m aid c) aid).2
      | none => m

/-- The `FOLLOWING` dispatch branch: within Manhattan distance 5 move toward the
guide, farther away fall back to `HELP` leaving `following_agent` set. -/
def follow_phase (m : GridModel) (aid : ℕ) (p : Pos) : GridModel :=
  match findAgent m aid with
  | none => m
  | some a =>
    match a.following_agent with
    | none => m
    | some g =>
      match posOf m g with
      | none => m
      | some gp =>
        if manhattan gp p ≤ 5 then (move_towards m aid gp).2
        else updAgent m aid (fun b => { b with state := AgState.HELP })

/-- The `HELP` dispatch branch: ask neighbors (always committing the updated
cooldown ledger), follow a found guide, otherwise constant-direction wander. -/
def help_phase (now : ℤ) (m : GridModel) (aid : ℕ) (p : Pos) : GridModel :=
  match findAgent m aid with
  | none => m
  | some a =>
    let res := ask_neighbors m p now a.asked_memory
    let m1 := updAgent m aid (fun b => { b with asked_memory := res.2 })
    match res.1 with
    | some g =>
      updAgent m1 aid (fun b =>
        { b with state := AgState.FOLLOWING, following_agent := some g,
                 follow_start_time := now })
    | none => do_random_constant_move m1 aid

/-- `EvacAgent.step`. -/
def agent_step (now : ℤ) (m : GridModel) (aid : ℕ) : GridModel :=
  match findAgent m aid with
  | none => m
  | some a =>
    match a.pos with
    | none => m
    | some p =>
      if a.emergency_triggered = false then wander_phase m aid p
      else
        let visible := get_visible_exits m p
        let m1 :=
          if visible ≠ [] then
            updAgent m aid (fun b =>
              { b with state := AgState.EVACUATING, following_agent := none })
          else m
        let m2 := follow_checks now m1 aid
        match stateOf m2 aid with
        | none => m2
        | some AgState.EVACUATING => evac_phase m2 aid p visible
        | some AgState.FOLLOWING => follow_phase m2 aid p
        | some AgState.HELP => help_phase now m2 aid p

/-- `MonitorAgent.step`: fire once when the elapsed wall-clock time reaches the
threshold; mark every currently active evacuee in one sweep. -/
def monitor_step (now : ℤ) (m : GridModel) : GridModel :=
  if m.monitor_triggered = false ∧ m.emergency_time ≤ now - m.start_time then
    { m with monitor_triggered := true, emergency := true,
             agents := m.agents.map (fun a =>
               if a.id ∈ m.active_ids then { a with emergency_triggered := true } else a) }
  else m

/-- `GridModel.step`: monitor first, then every agent from a snapshot
(`list(self.active_agents)`) of the active pool. -/
def GridModel.step (now : ℤ) (m : GridModel) : GridModel :=
  let m1 := monitor_step now m
  m1.active_ids.foldl (agent_step now) m1

/-- `grid.coord_iter()` coordinates of the square grid. -/
def all_cells (gs : ℤ) : List Pos :=
  (List.range gs.toNat).flatMap (fun x => (List.range gs.toNat).map (fun y => ((x : ℤ), (y : ℤ))))

/-- The evacuee-creation loop of `GridModel.__init__`: recompute the empty
cells, place a fresh agent on a random one (skip when the grid is full). -/
def place_evacs : ℕ → ℕ → GridModel → GridModel
  | 0, _, m => m
  | k + 1, nid, m =>
    match (all_cells m.grid_size).filter (fun c => decide (cell_is_empty m c)) with
    | [] => place_evacs k nid m
    | c :: cs =>
      let qr := rngChoose m.rand (c :: cs) c
      place_evacs k (nid + 1)
        { m with
          agents := m.agents ++ [{ id := nid, pos := some qr.1, emergency_triggered := false,
                                   direction := none, state := AgState.HELP,
                                   following_agent := none, follow_start_time := 0,
                                   asked_memory := [] }],
          active_ids := m.active_ids ++ [nid],
          rand := qr.2 }

/-- `GridModel.__init__(grid_size, seed, emergency_time)`: exits hardcoded to
the two opposite corners, `NUM_AGENTS` evacuees placed on random empty cells.
There is no `exit_positions` parameter and no validation of the arguments. -/
def GridModel.init (grid_size : ℤ) (seed : ℕ) (emergency_time : ℤ) (t0 : ℤ) : GridModel :=
  place_evacs NUM_AGENTS 0
    { grid_size := grid_size, running := true, emergency := false,
      start_time := t0, emergency_time := emergency_time, monitor_triggered := false,
      exits := [(0, 0), (grid_size - 1, grid_size - 1)],
      agents := [], active_ids := [], rand := seed }

/-! ### Derived notions used in the verification -/

def posList (l : List EvacAgent) : List Pos := l.filterMap (·.pos)

def agentFrame (m : GridModel) : ℤ × Bool × Bool × ℤ × ℤ × Bool × List Pos :=
  (m.grid_size, m.running, m.emergency, m.start_time, m.emergency_time,
   m.monitor_triggered, m.exits)

/-- Observational agreement used for frame reasoning: the orchestrator-level
fields and every agent's emergency flag coincide. -/
def obsEq (m' m : GridModel) : Prop :=
  agentFrame m' = agentFrame m ∧ ∀ x, flagOf m' x = flagOf m x

/-- No two placed evacuees share a cell, no placed evacuee sits on an exit
marker, and agent identities are unique. -/
def OccInv (m : GridModel) : Prop :=
  (posList m.agents).Nodup ∧ (∀ p ∈ posList m.agents, p ∉ m.exits) ∧
  (m.agents.map (fun a => a.id)).Nodup

instance (m : GridModel) : Decidable (OccInv m) := by
  unfold OccInv; infer_instance

/-! ### Concrete states used to exercise the theorems -/

/-- A two-evacuee state: agent 0 is evacuating right next to the corner exit,
agent 1 is in help state in the middle of the grid. -/
def mC3 : GridModel :=
  { grid_size := 10, running := true, emergency := true, start_time := 0,
    emergency_time := 10, monitor_triggered := true,
    exits := [(0, 0), (9, 9)],
    agents := [
      { id := 0, pos := some (1, 0), emergency_triggered := true, direction := none,
        state := AgState.EVACUATING, following_agent := none, follow_start_time := 0,
        asked_memory := [] },
      { id := 1, pos := some (5, 5), emergency_triggered := true, direction := none,
        state := AgState.HELP, following_agent := none, follow_start_time := 0,
        asked_memory := [] }],
    active_ids := [0, 1], rand := 0 }

/-- A state whose single evacuee already stands on the corner exit marker. -/
def mC3b : GridModel :=
  { grid_size := 10, running := true, emergency := true, start_time := 0,
    emergency_time := 10, monitor_triggered := true,
    exits := [(0, 0), (9, 9)],
    agents := [
      { id := 0, pos := some (0, 0), emergency_triggered := true, direction := none,
        state := AgState.EVACUATING, following_agent := none, follow_start_time := 0,
        asked_memory := [] }],
    active_ids := [0], rand := 0 }

def aC3b : EvacAgent :=
  { id := 0, pos := some (0, 0), emergency_triggered := true, direction := none,
    state := AgState.EVACUATING, following_agent := none, follow_start_time := 0,
    asked_memory := [] }

/-- An untriggered state (the monitor has not fired yet). -/
def mC4 : GridModel :=
  { grid_size := 10, running := true, emergency := false, start_time := 0,
    emergency_time := 10, monitor_triggered := false,
    exits := [(0, 0), (9, 9)],
    agents := [
      { id := 0, pos := some (3, 3), emergency_triggered := false, direction := none,
        state := AgState.HELP, following_agent := none, follow_start_time := 0,
        asked_memory := [] },
      { id := 1, pos := some (6, 6), emergency_triggered := true, direction := none,
        state := AgState.HELP, following_agent := none, follow_start_time := 0,
        asked_memory := [] }],
    active_ids := [0, 1], rand := 0 }

/-- The same state with the monitor already triggered. -/
def mC4b : GridModel :=
  { mC4 with monitor_triggered := true }

/-- An evacuating agent two cells away from the corner exit. -/
def mC5 : GridModel :=
  { grid_size := 10, running := true, emergency := true, start_time := 0,
    emergency_time := 10, monitor_triggered := true,
    exits := [(0, 0), (9, 9)],
    agents := [
      { id := 0, pos := some (2, 0), emergency_triggered := true, direction := none,
        state := AgState.EVACUATING, following_agent := none, follow_start_time := 0,
        asked_memory := [] }],
    active_ids := [0], rand := 0 }

def aC5 : EvacAgent :=
  { id := 0, pos := some (2, 0), emergency_triggered := true, direction := none,
    state := AgState.EVACUATING, following_agent := none, follow_start_time := 0,
    asked_memory := [] }

/-- A help-state asker at the center with one active neighbor that can see the
corner exit. -/
def mC6 : GridModel :=
  { grid_size := 10, running := true, emergency := true, start_time := 0,
    emergency_time := 10, monitor_triggered := true,
    exits := [(0, 0), (9, 9)],
    agents := [
      { id := 0, pos := some (5, 5), emergency_triggered := true, direction := none,
        state := AgState.HELP, following_agent := none, follow_start_time := 0,
        asked_memory := [] },
      { id := 1, pos := some (3, 3), emergency_triggered := true, direction := none,
        state := AgState.HELP, following_agent := none, follow_start_time := 0,
        asked_memory := [] }],
    active_ids := [0, 1], rand := 0 }

/-- A small post-trigger state on a 4-by-4 grid satisfying the occupancy
invariant. -/
def mC7 : GridModel :=
  { grid_size := 4, running := true, emergency := true, start_time := 0,
    emergency_time := 10, monitor_triggered := true,
    exits := [(0, 0), (3, 3)],
    agents := [
      { id := 0, pos := some (1, 1), emergency_triggered := true, direction := none,
        state := AgState.HELP, following_agent := none, follow_start_time := 0,
        asked_memory := [] },
      { id := 1, pos := some (2, 2), emergency_triggered := true, direction := none,
        state := AgState.HELP, following_agent := none, follow_start_time := 0,
        asked_memory := [] }],
    active_ids := [0, 1], rand := 0 }

/-- A follower whose guide drifted to Manhattan distance 6, with no visible
exits and no timeout. -/
def mC9 : GridModel :=
  { grid_size := 12, running := true, emergency := true, start_time := 0,
    emergency_time := 10, monitor_triggered := true,
    exits := [(0, 0), (11, 11)],
    agents := [
      { id := 0, pos := some (5, 5), emergency_triggered := true, direction := none,
        state := AgState.FOLLOWING, following_agent := some 1, follow_start_time := 0,
        asked_memory := [] },
      { id := 1, pos := some (5, 11), emergency_triggered := true, direction := none,
        state := AgState.HELP, following_agent := none, follow_start_time := 0,
        asked_memory := [] }],
    active_ids := [0, 1], rand := 0 }

def aC9 : EvacAgent :=
  { id := 0, pos := some (5, 5), emergency_triggered := true, direction := none,
    state := AgState.FOLLOWING, following_agent := some 1, follow_start_time := 0,
    asked_memory := [] }

/-- An evacuating agent whose two direct candidates toward the corner exit are
both occupied, forcing the fallback step. -/
def mC10 : GridModel :=
  { grid_size := 10, running := true, emergency := true, start_time := 0,
    emergency_time := 10, monitor_triggered := true,
    exits := [(0, 0), (9, 9)],
    agents := [
      { id := 0, pos := some (1, 1), emergency_triggered := true, direction := none,
        state := AgState.EVACUATING, following_agent := none, follow_start_time := 0,
        asked_memory := [] },
      { id := 2, pos := some (0, 1), emergency_triggered := true, direction := none,
        state := AgState.HELP, following_agent := none, follow_start_time := 0,
        asked_memory := [] },
      { id := 3, pos := some (1, 0), emergency_triggered := true, direction := none,
        state := AgState.HELP, following_agent := none, follow_start_time := 0,
        asked_memory := [] }],
    active_ids := [0, 2, 3], rand := 0 }

def aC10 : EvacAgent :=
  { id := 0, pos := some (1, 1), emergency_triggered := true, direction := none,
    state := AgState.EVACUATING, following_agent := none, follow_start_time := 0,
    asked_memory := [] }


/-! ### Generic lemmas about the agent list and the model updates -/

lemma mem_posList {l : List EvacAgent} {p : Pos} :
    p ∈ posList l ↔ ∃ a ∈ l, a.pos = some p := by
  simp [posList, List.mem_filterMap]

lemma posList_map_of_pos_eq {g : EvacAgent → EvacAgent} (hg : ∀ a, (g a).pos = a.pos) :
    ∀ l : List EvacAgent, posList (l.map g) = posList l := by
  intro l
  induction l with
  | nil => rfl
  | cons a l ih =>
    simp only [List.map_cons, posList, List.filterMap_cons, hg a] at *
    cases a.pos <;> simp [ih]

lemma ids_map_of_id_eq {g : EvacAgent → EvacAgent} (hg : ∀ a, (g a).id = a.id) :
    ∀ l : List EvacAgent, (l.map g).map (fun a => a.id) = l.map (fun a => a.id) := by
  intro l
  induction l with
  | nil => rfl
  | cons a l ih => simp [hg, ih]

lemma find_id_map {g : EvacAgent → EvacAgent} (hg : ∀ a, (g a).id = a.id) (x : ℕ) :
    ∀ l : List EvacAgent,
      (l.map g).find? (fun a => decide (a.id = x)) =
        (l.find? (fun a => decide (a.id = x))).map g := by
  intro l
  induction l with
  | nil => rfl
  | cons a l ih =>
    by_cases h : a.id = x
    · simp [List.find?_cons, hg, h]
    · simp [List.find?_cons, hg, h, ih]

lemma findAgent_updAgent (m : GridModel) (aid : ℕ) (f : EvacAgent → EvacAgent)
    (hf : ∀ a, (f a).id = a.id) (x : ℕ) :
    findAgent (updAgent m aid f) x =
      (findAgent m x).map (fun a => if a.id = aid then f a else a) := by
  unfold findAgent updAgent
  exact find_id_map (fun a => by by_cases h : a.id = aid <;> simp [h, hf]) x m.agents

@[simp] lemma updAgent_exits (m : GridModel) (aid : ℕ) (f : EvacAgent → EvacAgent) :
    (updAgent m aid f).exits = m.exits := rfl

@[simp] lemma updAgent_running (m : GridModel) (aid : ℕ) (f : EvacAgent → EvacAgent) :
    (updAgent m aid f).running = m.running := rfl

@[simp] lemma updAgent_active (m : GridModel) (aid : ℕ) (f : EvacAgent → EvacAgent) :
    (updAgent m aid f).active_ids = m.active_ids := rfl

@[simp] lemma updAgent_rand (m : GridModel) (aid : ℕ) (f : EvacAgent → EvacAgent) :
    (updAgent m aid f).rand = m.rand := rfl

@[simp] lemma updAgent_grid_size (m : GridModel) (aid : ℕ) (f : EvacAgent → EvacAgent) :
    (updAgent m aid f).grid_size = m.grid_size := rfl

lemma rngChoose_mem {α : Type} (s : ℕ) (v : α) (vs : List α) (d : α) :
    (rngChoose s (v :: vs) d).1 ∈ v :: vs := by
  unfold rngChoose
  have hlt : s % (v :: vs).length < (v :: vs).length :=
    Nat.mod_lt _ (by simp)
  rw [List.getD_eq_getElem?_getD, List.getElem?_eq_getElem hlt]
  simp [List.getElem_mem]

lemma foldl_min_mem (t : Pos) (fs : List Pos) :
    ∀ f : Pos,
      (fs.foldl (fun best c => if manhattan c t < manhattan best t then c else best) f) ∈ f :: fs ∧
      ∀ x ∈ f :: fs,
        manhattan (fs.foldl (fun best c => if manhattan c t < manhattan best t then c else best) f) t ≤
          manhattan x t := by
  induction fs with
  | nil => intro f; simp
  | cons c cs ih =>
    intro f
    simp only [List.foldl_cons]
    by_cases h : manhattan c t < manhattan f t
    · rw [if_pos h]
      refine ⟨?_, ?_⟩
      · have h1 := (ih c).1
        simp only [List.mem_cons] at h1 ⊢
        tauto
      · intro x hx
        have h2 := (ih c).2
        simp only [List.mem_cons] at hx
        rcases hx with hx | hx | hx
        · subst hx
          exact le_of_lt (lt_of_le_of_lt (h2 c (by simp)) h)
        · subst hx
          exact h2 x (by simp)
        · exact h2 x (by simp [hx])
    · rw [if_neg h]
      refine ⟨?_, ?_⟩
      · have h1 := (ih f).1
        simp only [List.mem_cons] at h1 ⊢
        tauto
      · intro x hx
        have h2 := (ih f).2
        simp only [List.mem_cons] at hx
        rcases hx with hx | hx | hx
        · subst hx
          exact h2 x (by simp)
        · subst hx
          exact le_trans (h2 f (by simp)) (not_lt.1 h)
        · exact h2 x (by simp [hx])

lemma try_candidates_eq (m : GridModel) (aid : ℕ) :
    ∀ l : List Pos,
      try_candidates m aid l =
        match l.find? (fun c => decide (accept m c)) with
        | some c => (true, (check_exit (move_agent m aid c) aid).2)
        | none => (false, m) := by
  intro l
  induction l with
  | nil => rfl
  | cons c cs ih =>
    by_cases h : accept m c
    · simp [try_candidates, List.find?_cons, h]
    · simp [try_candidates, List.find?_cons, h, ih]

/-! ### Frame observations: fields and emergency flags untouched by agent steps -/

lemma obsEq_refl (m : GridModel) : obsEq m m := ⟨rfl, fun _ => rfl⟩

lemma obsEq_trans {m1 m2 m3 : GridModel} (h1 : obsEq m1 m2) (h2 : obsEq m2 m3) :
    obsEq m1 m3 :=
  ⟨h1.1.trans h2.1, fun x => (h1.2 x).trans (h2.2 x)⟩

lemma flagOf_updAgent (m : GridModel) (aid : ℕ) (f : EvacAgent → EvacAgent)
    (hf : ∀ a, (f a).id = a.id)
    (hfl : ∀ a, (f a).emergency_triggered = a.emergency_triggered) (x : ℕ) :
    flagOf (updAgent m aid f) x = flagOf m x := by
  unfold flagOf
  rw [findAgent_updAgent m aid f hf x]
  rcases findAgent m x with _ | a
  · rfl
  · by_cases h : a.id = aid <;> simp [h, hfl]

lemma obsEq_updAgent (m : GridModel) (aid : ℕ) (f : EvacAgent → EvacAgent)
    (hf : ∀ a, (f a).id = a.id)
    (hfl : ∀ a, (f a).emergency_triggered = a.emergency_triggered) :
    obsEq (updAgent m aid f) m :=
  ⟨rfl, flagOf_updAgent m aid f hf hfl⟩

lemma obsEq_move_agent (m : GridModel) (aid : ℕ) (c : Pos) :
    obsEq (move_agent m aid c) m :=
  obsEq_updAgent m aid (fun a => { a with pos := some c }) (fun _ => rfl) (fun _ => rfl)

lemma obsEq_check_exit (m : GridModel) (aid : ℕ) :
    obsEq (check_exit m aid).2 m := by
  unfold check_exit
  rcases h : findAgent m aid with _ | a <;> simp only [h]
  · exact obsEq_refl m
  · rcases hp : a.pos with _ | p <;> simp only [hp]
    · exact obsEq_refl m
    · by_cases hx : p ∈ m.exits
      · rw [if_pos hx]
        refine ⟨rfl, fun x => ?_⟩
        have h1 : flagOf { grid_remove m aid with active_ids := m.active_ids.erase aid } x
            = flagOf (grid_remove m aid) x := rfl
        show flagOf { grid_remove m aid with active_ids := m.active_ids.erase aid } x = flagOf m x
        rw [h1]
        unfold grid_remove
        exact flagOf_updAgent m aid (fun a => { a with pos := none })
          (fun _ => rfl) (fun _ => rfl) x
      · rw [if_neg hx]
        exact obsEq_refl m

lemma obsEq_try_candidates (m : GridModel) (aid : ℕ) :
    ∀ l : List Pos, obsEq (try_candidates m aid l).2 m := by
  intro l
  induction l with
  | nil => exact obsEq_refl m
  | cons c cs ih =>
    by_cases h : accept m c
    · simp only [try_candidates, if_pos h]
      exact obsEq_trans (obsEq_check_exit _ _) (obsEq_move_agent m aid c)
    · simpa only [try_candidates, if_neg h] using ih

lemma obsEq_move_towards (m : GridModel) (aid : ℕ) (t : Pos) :
    obsEq (move_towards m aid t).2 m := by
  unfold move_towards
  rcases h : findAgent m aid with _ | a <;> simp only [h]
  · exact obsEq_refl m
  · rcases hp : a.pos with _ | p <;> simp only [hp]
    · exact obsEq_refl m
    · exact obsEq_try_candidates m aid _

lemma obsEq_rand_set (m : GridModel) (r : ℕ) :
    obsEq { m with rand := r } m := ⟨rfl, fun _ => rfl⟩

lemma obsEq_pick_random_direction (m : GridModel) (aid : ℕ) :
    obsEq (pick_random_direction m aid) m := by
  unfold pick_random_direction
  exact obsEq_trans (obsEq_rand_set _ _)
    (obsEq_updAgent m aid (fun a => { a with direction := some (rngChoose m.rand directions (0, 1)).1 })
      (fun _ => rfl) (fun _ => rfl))

lemma obsEq_constant_move_attempt (m : GridModel) (aid : ℕ) :
    obsEq (constant_move_attempt m aid) m := by
  unfold constant_move_attempt
  rcases h : findAgent m aid with _ | a <;> simp only [h]
  · exact obsEq_refl m
  · rcases hd : a.direction with _ | d <;> rcases hp : a.pos with _ | p <;> simp only [hd, hp]
    · exact obsEq_refl m
    · exact obsEq_refl m
    · exact obsEq_refl m
    · by_cases hc : ¬ out_of_bounds m (p.1 + d.1, p.2 + d.2) ∧
          cell_is_empty m (p.1 + d.1, p.2 + d.2)
      · rw [if_pos hc]
        exact obsEq_move_agent m aid _
      · rw [if_neg hc]
        exact obsEq_pick_random_direction m aid

lemma obsEq_do_random_constant_move (m : GridModel) (aid : ℕ) :
    obsEq (do_random_constant_move m aid) m := by
  unfold do_random_constant_move
  rcases h : findAgent m aid with _ | a <;> simp only [h]
  · exact obsEq_constant_move_attempt m aid
  · by_cases hd : a.direction = none
    · rw [if_pos hd]
      exact obsEq_trans (obsEq_constant_move_attempt _ aid) (obsEq_pick_random_direction m aid)
    · rw [if_neg hd]
      exact obsEq_constant_move_attempt m aid

lemma obsEq_wander_phase (m : GridModel) (aid : ℕ) (p : Pos) :
    obsEq (wander_phase m aid p) m := by
  unfold wander_phase
  rcases h : (vn_neighborhood m p).filter (fun n => decide (cell_is_empty m n)) with _ | ⟨v, vs⟩
  · exact obsEq_refl m
  · exact obsEq_trans (obsEq_rand_set _ _) (obsEq_move_agent m aid _)

lemma obsEq_follow_checks (now : ℤ) (m : GridModel) (aid : ℕ) :
    obsEq (follow_checks now m aid) m := by
  unfold follow_checks
  rcases h : findAgent m aid with _ | a <;> simp only [h]
  · exact obsEq_refl m
  · by_cases hs : a.state = AgState.FOLLOWING
    · rw [if_pos hs]
      by_cases ht : 10 < now - a.follow_start_time
      · rw [if_pos ht]
        exact obsEq_updAgent m aid
          (fun b => { b with state := AgState.HELP, following_agent := none })
          (fun _ => rfl) (fun _ => rfl)
      · rw [if_neg ht]
        rcases hg : a.following_agent with _ | g <;> simp only [hg]
        · exact obsEq_updAgent m aid
            (fun b => { b with state := AgState.HELP, following_agent := none })
            (fun _ => rfl) (fun _ => rfl)
        · by_cases ha : g ∈ m.active_ids
          · rw [if_pos ha]
            exact obsEq_refl m
          · rw [if_neg ha]
            exact obsEq_updAgent m aid
              (fun b => { b with state := AgState.HELP, following_agent := none })
              (fun _ => rfl) (fun _ => rfl)
    · rw [if_neg hs]
      exact obsEq_refl m

lemma obsEq_evac_phase (m : GridModel) (aid : ℕ) (p : Pos) (visible : List Pos) :
    obsEq (evac_phase m aid p visible) m := by
  unfold evac_phase
  rcases h : closest_exit p visible with _ | e <;> simp only [h]
  · exact obsEq_refl m
  · by_cases hm : (move_towards m aid e).1
    · rw [if_pos hm]
      exact obsEq_move_towards m aid e
    · rw [if_neg hm]
      rcases hb : best_free_step_towards_exit m p e with _ | c <;> simp only [hb]
      · exact obsEq_refl m
      · exact obsEq_trans (obsEq_check_exit _ _) (obsEq_move_agent m aid c)

lemma obsEq_follow_phase (m : GridModel) (aid : ℕ) (p : Pos) :
    obsEq (follow_phase m aid p) m := by
  unfold follow_phase
  rcases h : findAgent m aid with _ | a <;> simp only [h]
  · exact obsEq_refl m
  · rcases hg : a.following_agent with _ | g <;> simp only [hg]
    · exact obsEq_refl m
    · rcases hgp : posOf m g with _ | gp <;> simp only [hgp]
      · exact obsEq_refl m
      · by_cases hd : manhattan gp p ≤ 5
        · rw [if_pos hd]
          exact obsEq_move_towards m aid gp
        · rw [if_neg hd]
          exact obsEq_updAgent m aid (fun b => { b with state := AgState.HELP })
            (fun _ => rfl) (fun _ => rfl)

lemma obsEq_help_phase (now : ℤ) (m : GridModel) (aid : ℕ) (p : Pos) :
    obsEq (help_phase now m aid p) m := by
  unfold help_phase
  rcases h : findAgent m aid with _ | a <;> simp only [h]
  · exact obsEq_refl m
  · have hmem : obsEq (updAgent m aid
        (fun b => { b with asked_memory := (ask_neighbors m p now a.asked_memory).2 })) m :=
      obsEq_updAgent m aid
        (fun b => { b with asked_memory := (ask_neighbors m p now a.asked_memory).2 })
        (fun _ => rfl) (fun _ => rfl)
    rcases hg : (ask_neighbors m p now a.asked_memory).1 with _ | g <;> simp only [hg]
    · exact obsEq_trans (obsEq_do_random_constant_move _ aid) hmem
    · exact obsEq_trans
        (obsEq_updAgent _ aid
          (fun b => { b with state := AgState.FOLLOWING, following_agent := some g,
                             follow_start_time := now })
          (fun _ => rfl) (fun _ => rfl)) hmem

lemma obsEq_agent_step (now : ℤ) (m : GridModel) (aid : ℕ) :
    obsEq (agent_step now m aid) m := by
  unfold agent_step
  rcases h : findAgent m aid with _ | a <;> simp only [h]
  · exact obsEq_refl m
  · rcases hp : a.pos with _ | p <;> simp only [hp]
    · exact obsEq_refl m
    · by_cases he : a.emergency_triggered = false
      · rw [if_pos he]
        exact obsEq_wander_phase m aid p
      · rw [if_neg he]
        set m1 := if get_visible_exits m p ≠ [] then
            updAgent m aid (fun b =>
              { b with state := AgState.EVACUATING, following_agent := none })
          else m with hm1
        have h1 : obsEq m1 m := by
          rw [hm1]
          by_cases hv : get_visible_exits m p ≠ []
          · rw [if_pos hv]
            exact obsEq_updAgent m aid
              (fun b => { b with state := AgState.EVACUATING, following_agent := none })
              (fun _ => rfl) (fun _ => rfl)
          · rw [if_neg hv]
            exact obsEq_refl m
        have h2 : obsEq (follow_checks now m1 aid) m :=
          obsEq_trans (obsEq_follow_checks now m1 aid) h1
        rcases hs : stateOf (follow_checks now m1 aid) aid with _ | st
        · simp only [hs]
          exact h2
        · rcases st with _ | _ | _ <;> simp only [hs]
          · exact obsEq_trans (obsEq_help_phase now _ aid p) h2
          · exact obsEq_trans (obsEq_follow_phase _ aid p) h2
          · exact obsEq_trans (obsEq_evac_phase _ aid p _) h2

/-! ### The single-occupancy invariant -/

lemma posList_sublist_cons (a : EvacAgent) (l : List EvacAgent) :
    (posList l).Sublist (posList (a :: l)) := by
  rcases ha : a.pos with _ | q <;> simp [posList, List.filterMap_cons, ha]

lemma posList_cons_nodup {a : EvacAgent} {l : List EvacAgent}
    (h : (posList (a :: l)).Nodup) : (posList l).Nodup :=
  ((posList_sublist_cons a l).nodup h)

lemma map_upd_id_of_not_mem (aid : ℕ) (f : EvacAgent → EvacAgent) :
    ∀ l : List EvacAgent, (∀ a ∈ l, a.id ≠ aid) →
      l.map (fun a => if a.id = aid then f a else a) = l := by
  intro l
  induction l with
  | nil => intro; rfl
  | cons a l ih =>
    intro h
    simp only [List.map_cons, if_neg (h a (List.mem_cons_self a l))]
    rw [ih (fun b hb => h b (List.mem_cons_of_mem a hb))]

lemma posList_setPos (aid : ℕ) (c : Pos) :
    ∀ l : List EvacAgent,
      (l.map (fun a => a.id)).Nodup → (posList l).Nodup → (∀ a ∈ l, a.pos ≠ some c) →
      (posList (l.map (fun a => if a.id = aid then { a with pos := some c } else a))).Nodup ∧
      (∀ p ∈ posList (l.map (fun a => if a.id = aid then { a with pos := some c } else a)),
        p = c ∨ p ∈ posList l) := by
  intro l
  induction l with
  | nil => intro _ _ _; simp [posList]
  | cons a l ih =>
    intro hids hpos hnc
    have hids' : (l.map (fun a => a.id)).Nodup := (List.nodup_cons.1 hids).2
    have hpos' : (posList l).Nodup := posList_cons_nodup hpos
    have hnc' : ∀ b ∈ l, b.pos ≠ some c := fun b hb => hnc b (List.mem_cons_of_mem a hb)
    have hcnotin : c ∉ posList l := by
      intro hc
      rcases mem_posList.1 hc with ⟨b, hb, hbp⟩
      exact hnc' b hb hbp
    by_cases hid : a.id = aid
    · have htail : ∀ b ∈ l, b.id ≠ aid := by
        intro b hb hbid
        have hab : a.id = b.id := hid.trans hbid.symm
        apply (List.nodup_cons.1 hids).1
        have hmem : b.id ∈ l.map (fun a => a.id) := List.mem_map_of_mem (fun a => a.id) hb
        simpa [hab] using hmem
      have hmap : l.map (fun a => if a.id = aid then { a with pos := some c } else a) = l :=
        map_upd_id_of_not_mem aid _ l htail
      have hnew : posList ({ a with pos := some c } :: l) = c :: posList l := by
        simp [posList, List.filterMap_cons]
      simp only [List.map_cons, if_pos hid, hmap]
      rw [hnew]
      refine ⟨List.nodup_cons.2 ⟨hcnotin, hpos'⟩, fun p hp => ?_⟩
      rcases List.mem_cons.1 hp with hp | hp
      · exact Or.inl hp
      · exact Or.inr ((posList_sublist_cons a l).subset hp)
    · rcases ih hids' hpos' hnc' with ⟨ih1, ih2⟩
      simp only [List.map_cons, if_neg hid]
      rcases ha : a.pos with _ | q
      · have h1 : posList (a :: l.map (fun a => if a.id = aid then { a with pos := some c } else a))
            = posList (l.map (fun a => if a.id = aid then { a with pos := some c } else a)) := by
          simp [posList, List.filterMap_cons, ha]
        rw [h1]
        refine ⟨ih1, fun p hp => ?_⟩
        rcases ih2 p hp with h' | h'
        · exact Or.inl h'
        · exact Or.inr ((posList_sublist_cons a l).subset h')
      · have hql : posList (a :: l) = q :: posList l := by
          simp [posList, List.filterMap_cons, ha]
        have h1 : posList (a :: l.map (fun a => if a.id = aid then { a with pos := some c } else a))
            = q :: posList (l.map (fun a => if a.id = aid then { a with pos := some c } else a)) := by
          simp [posList, List.filterMap_cons, ha]
        have hq1 : q ∉ posList (l.map (fun a => if a.id = aid then { a with pos := some c } else a)) := by
          intro hq
          rcases ih2 q hq with h' | h'
          · exact hnc a (List.mem_cons_self a l) (by rw [ha, h'])
          · have hnd : (q :: posList l).Nodup := by rw [← hql]; exact hpos
            exact (List.nodup_cons.1 hnd).1 h'
        rw [h1]
        refine ⟨List.nodup_cons.2 ⟨hq1, ih1⟩, fun p hp => ?_⟩
        rcases List.mem_cons.1 hp with hp | hp
        · subst hp
          exact Or.inr (by rw [hql]; exact List.mem_cons_self p _)
        · rcases ih2 p hp with h' | h'
          · exact Or.inl h'
          · exact Or.inr ((posList_sublist_cons a l).subset h')

lemma posList_setNone_sublist (aid : ℕ) :
    ∀ l : List EvacAgent,
      (posList (l.map (fun a => if a.id = aid then { a with pos := none } else a))).Sublist
        (posList l) := by
  intro l
  induction l with
  | nil => simp [posList]
  | cons a l ih =>
    by_cases hid : a.id = aid
    · simp only [List.map_cons, if_pos hid]
      rcases ha : a.pos with _ | q
      · have h1 : posList (({ a with pos := none } : EvacAgent) :: l.map (fun a => if a.id = aid then { a with pos := none } else a))
            = posList (l.map (fun a => if a.id = aid then { a with pos := none } else a)) := by
          simp [posList, List.filterMap_cons]
        have h2 : posList (a :: l) = posList l := by
          simp [posList, List.filterMap_cons, ha]
        rw [h1, h2]
        exact ih
      · have h1 : posList (({ a with pos := none } : EvacAgent) :: l.map (fun a => if a.id = aid then { a with pos := none } else a))
            = posList (l.map (fun a => if a.id = aid then { a with pos := none } else a)) := by
          simp [posList, List.filterMap_cons]
        have h2 : posList (a :: l) = q :: posList l := by
          simp [posList, List.filterMap_cons, ha]
        rw [h1, h2]
        exact ih.trans (List.sublist_cons_self q _)
    · simp only [List.map_cons, if_neg hid]
      rcases ha : a.pos with _ | q
      · have h1 : posList (a :: l.map (fun a => if a.id = aid then { a with pos := none } else a))
            = posList (l.map (fun a => if a.id = aid then { a with pos := none } else a)) := by
          simp [posList, List.filterMap_cons, ha]
        have h2 : posList (a :: l) = posList l := by
          simp [posList, List.filterMap_cons, ha]
        rw [h1, h2]
        exact ih
      · have h1 : posList (a :: l.map (fun a => if a.id = aid then { a with pos := none } else a))
            = q :: posList (l.map (fun a => if a.id = aid then { a with pos := none } else a)) := by
          simp [posList, List.filterMap_cons, ha]
        have h2 : posList (a :: l) = q :: posList l := by
          simp [posList, List.filterMap_cons, ha]
        rw [h1, h2]
        exact ih.cons₂ q

/-! ### Preservation of the occupancy invariant -/

lemma OccInv_congr {m' m : GridModel} (ha : m'.agents = m.agents)
    (he : m'.exits = m.exits) (h : OccInv m) : OccInv m' := by
  unfold OccInv at *
  rw [ha, he]
  exact h

lemma OccInv_map (m : GridModel) (g : EvacAgent → EvacAgent)
    (hg_id : ∀ a, (g a).id = a.id) (hg_pos : ∀ a, (g a).pos = a.pos) (h : OccInv m) :
    OccInv { m with agents := m.agents.map g } := by
  obtain ⟨h1, h2, h3⟩ := h
  refine ⟨?_, ?_, ?_⟩
  · show (posList (m.agents.map g)).Nodup
    rw [posList_map_of_pos_eq hg_pos]
    exact h1
  · show ∀ p ∈ posList (m.agents.map g), p ∉ m.exits
    rw [posList_map_of_pos_eq hg_pos]
    exact h2
  · show ((m.agents.map g).map (fun a => a.id)).Nodup
    rw [ids_map_of_id_eq hg_id]
    exact h3

lemma OccInv_updAgent (m : GridModel) (aid : ℕ) (f : EvacAgent → EvacAgent)
    (hf_id : ∀ a, (f a).id = a.id) (hf_pos : ∀ a, (f a).pos = a.pos)
    (h : OccInv m) : OccInv (updAgent m aid f) := by
  unfold updAgent
  exact OccInv_map m _
    (fun a => by by_cases hc : a.id = aid <;> simp [hc, hf_id])
    (fun a => by by_cases hc : a.id = aid <;> simp [hc, hf_pos]) h

lemma OccInv_move_to_empty (m : GridModel) (aid : ℕ) (c : Pos)
    (hc : cell_is_empty m c) (h : OccInv m) : OccInv (move_agent m aid c) := by
  obtain ⟨h1, h2, h3⟩ := h
  obtain ⟨hce, hca⟩ := hc
  have key := posList_setPos aid c m.agents h3 h1 (fun a ha => hca a ha)
  refine ⟨key.1, ?_, ?_⟩
  · intro p hp
    rcases key.2 p hp with h' | h'
    · subst h'
      exact hce
    · exact h2 p h'
  · show ((m.agents.map (fun a => if a.id = aid then { a with pos := some c } else a)).map
        (fun a => a.id)).Nodup
    rw [ids_map_of_id_eq (fun a => by by_cases hcc : a.id = aid <;> simp [hcc]) m.agents]
    exact h3

lemma OccInv_remove_map (m : GridModel) (aid : ℕ) (h : OccInv m) :
    OccInv (updAgent m aid (fun a => { a with pos := none })) := by
  obtain ⟨h1, h2, h3⟩ := h
  have hsub := posList_setNone_sublist aid m.agents
  refine ⟨hsub.nodup h1, fun q hq => h2 q (hsub.subset hq), ?_⟩
  show ((m.agents.map (fun a => if a.id = aid then { a with pos := none } else a)).map
      (fun a => a.id)).Nodup
  rw [ids_map_of_id_eq (fun a => by by_cases hcc : a.id = aid <;> simp [hcc]) m.agents]
  exact h3

lemma OccInv_check_exit (m : GridModel) (aid : ℕ) (h : OccInv m) :
    OccInv (check_exit m aid).2 := by
  unfold check_exit
  rcases hf : findAgent m aid with _ | a <;> simp only [hf]
  · exact h
  · rcases hp : a.pos with _ | p <;> simp only [hp]
    · exact h
    · by_cases hx : p ∈ m.exits
      · rw [if_pos hx]
        exact OccInv_congr rfl rfl (OccInv_remove_map m aid h)
      · rw [if_neg hx]
        exact h

lemma findAgent_move_agent (m : GridModel) (aid : ℕ) (c : Pos) (x : ℕ) :
    findAgent (move_agent m aid c) x =
      (findAgent m x).map (fun a => if a.id = aid then { a with pos := some c } else a) :=
  findAgent_updAgent m aid (fun a => { a with pos := some c }) (fun _ => rfl) x

lemma map_upd_comp (aid : ℕ) (c : Pos) :
    ∀ l : List EvacAgent,
      (l.map (fun a => if a.id = aid then { a with pos := some c } else a)).map
        (fun a => if a.id = aid then { a with pos := none } else a)
      = l.map (fun a => if a.id = aid then { a with pos := none } else a) := by
  intro l
  induction l with
  | nil => rfl
  | cons a l ih => by_cases hid : a.id = aid <;> simp [hid, ih]

lemma OccInv_land (m : GridModel) (aid : ℕ) (c : Pos)
    (hc : cell_is_empty m c ∨ is_exit_cell m c) (h : OccInv m) :
    OccInv ((check_exit (move_agent m aid c) aid).2) := by
  unfold check_exit
  rcases hf : findAgent (move_agent m aid c) aid with _ | a'
  · simp only [hf]
    rw [findAgent_move_agent] at hf
    have hnone : findAgent m aid = none := by
      rcases hfa : findAgent m aid with _ | b
      · rfl
      · rw [hfa] at hf
        cases hf
    have hall : ∀ b ∈ m.agents, b.id ≠ aid := by
      intro b hb
      have := List.find?_eq_none.1 hnone b hb
      simpa using this
    exact OccInv_congr (map_upd_id_of_not_mem aid _ m.agents hall) rfl h
  · simp only [hf]
    have hpos : a'.pos = some c := by
      rw [findAgent_move_agent] at hf
      rcases hfa : findAgent m aid with _ | b
      · rw [hfa] at hf
        cases hf
      · rw [hfa] at hf
        have hbid : b.id = aid := by
          have := List.find?_some hfa
          simpa using this
        rw [Option.map_some'] at hf
        have hga : ({ b with pos := some c } : EvacAgent) = a' := by
          have := Option.some.inj hf
          rwa [if_pos hbid] at this
        rw [← hga]
    rw [hpos]
    show OccInv ((if c ∈ (move_agent m aid c).exits then (true, { grid_remove (move_agent m aid c) aid with active_ids := (move_agent m aid c).active_ids.erase aid }) else (false, move_agent m aid c)).2)
    by_cases hx : c ∈ (move_agent m aid c).exits
    · rw [if_pos hx]
      refine @OccInv_congr _ _ ?_ ?_ (OccInv_remove_map m aid h)
      · exact map_upd_comp aid c m.agents
      · rfl
    · rw [if_neg hx]
      rcases hc with h' | h'
      · exact OccInv_move_to_empty m aid c h' h
      · exact absurd h' hx

lemma OccInv_try_candidates (m : GridModel) (aid : ℕ) (h : OccInv m) :
    ∀ l : List Pos, OccInv (try_candidates m aid l).2 := by
  intro l
  induction l with
  | nil => exact h
  | cons c cs ih =>
    by_cases hc : accept m c
    · simp only [try_candidates, if_pos hc]
      exact OccInv_land m aid c hc.2 h
    · simpa only [try_candidates, if_neg hc] using ih

lemma OccInv_move_towards (m : GridModel) (aid : ℕ) (t : Pos) (h : OccInv m) :
    OccInv (move_towards m aid t).2 := by
  unfold move_towards
  rcases hf : findAgent m aid with _ | a <;> simp only [hf]
  · exact h
  · rcases hp : a.pos with _ | p <;> simp only [hp]
    · exact h
    · exact OccInv_try_candidates m aid h _

lemma OccInv_rand_set (m : GridModel) (r : ℕ) (h : OccInv m) :
    OccInv { m with rand := r } := h

lemma OccInv_pick_random_direction (m : GridModel) (aid : ℕ) (h : OccInv m) :
    OccInv (pick_random_direction m aid) := by
  unfold pick_random_direction
  exact OccInv_rand_set _ _
    (OccInv_updAgent m aid (fun a => { a with direction := some (rngChoose m.rand directions (0, 1)).1 })
      (fun _ => rfl) (fun _ => rfl) h)

lemma OccInv_constant_move_attempt (m : GridModel) (aid : ℕ) (h : OccInv m) :
    OccInv (constant_move_attempt m aid) := by
  unfold constant_move_attempt
  rcases hf : findAgent m aid with _ | a <;> simp only [hf]
  · exact h
  · rcases hd : a.direction with _ | d <;> rcases hp : a.pos with _ | p <;> simp only [hd, hp]
    · exact h
    · exact h
    · exact h
    · by_cases hc : ¬ out_of_bounds m (p.1 + d.1, p.2 + d.2) ∧
          cell_is_empty m (p.1 + d.1, p.2 + d.2)
      · rw [if_pos hc]
        exact OccInv_move_to_empty m aid _ hc.2 h
      · rw [if_neg hc]
        exact OccInv_pick_random_direction m aid h

lemma OccInv_do_random_constant_move (m : GridModel) (aid : ℕ) (h : OccInv m) :
    OccInv (do_random_constant_move m aid) := by
  unfold do_random_constant_move
  rcases hf : findAgent m aid with _ | a <;> simp only [hf]
  · exact OccInv_constant_move_attempt m aid h
  · by_cases hd : a.direction = none
    · rw [if_pos hd]
      exact OccInv_constant_move_attempt _ aid (OccInv_pick_random_direction m aid h)
    · rw [if_neg hd]
      exact OccInv_constant_move_attempt m aid h

lemma OccInv_wander_phase (m : GridModel) (aid : ℕ) (p : Pos) (h : OccInv m) :
    OccInv (wander_phase m aid p) := by
  unfold wander_phase
  rcases hfil : (vn_neighborhood m p).filter (fun n => decide (cell_is_empty m n)) with _ | ⟨v, vs⟩
  · exact h
  · have hmem : (rngChoose m.rand (v :: vs) v).1 ∈ v :: vs := rngChoose_mem m.rand v vs v
    have hempty : cell_is_empty m (rngChoose m.rand (v :: vs) v).1 := by
      have hin : (rngChoose m.rand (v :: vs) v).1 ∈
          (vn_neighborhood m p).filter (fun n => decide (cell_is_empty m n)) := by
        rw [hfil]
        exact hmem
      exact of_decide_eq_true (List.mem_filter.1 hin).2
    exact OccInv_rand_set _ _ (OccInv_move_to_empty m aid _ hempty h)

/-- The result of the fallback step is a free neighbor minimizing Manhattan
distance to the target. -/
lemma best_free_step_mem (m : GridModel) (p t c : Pos)
    (h : best_free_step_towards_exit m p t = some c) :
    c ∈ free_neighbors m p ∧ ∀ d ∈ free_neighbors m p, manhattan c t ≤ manhattan d t := by
  unfold best_free_step_towards_exit at h
  rcases hfree : free_neighbors m p with _ | ⟨f, fs⟩
  · rw [hfree] at h
    cases h
  · rw [hfree] at h
    have hmin := foldl_min_mem t fs f
    have hcc := Option.some.inj h
    constructor
    · rw [← hcc]
      exact hmin.1
    · intro d hd
      rw [← hcc]
      exact hmin.2 d hd

lemma free_neighbors_spec (m : GridModel) (p c : Pos) (h : c ∈ free_neighbors m p) :
    ¬ out_of_bounds m c ∧ cell_is_empty m c := by
  unfold free_neighbors at h
  exact of_decide_eq_true (List.mem_filter.1 h).2

lemma OccInv_evac_phase (m : GridModel) (aid : ℕ) (p : Pos) (visible : List Pos)
    (h : OccInv m) : OccInv (evac_phase m aid p visible) := by
  unfold evac_phase
  rcases hc : closest_exit p visible with _ | e <;> simp only [hc]
  · exact h
  · by_cases hm : (move_towards m aid e).1
    · rw [if_pos hm]
      exact OccInv_move_towards m aid e h
    · rw [if_neg hm]
      rcases hb : best_free_step_towards_exit m p e with _ | c <;> simp only [hb]
      · exact h
      · have hempty := (free_neighbors_spec m p c (best_free_step_mem m p e c hb).1).2
        exact OccInv_land m aid c (Or.inl hempty) h

lemma OccInv_follow_phase (m : GridModel) (aid : ℕ) (p : Pos) (h : OccInv m) :
    OccInv (follow_phase m aid p) := by
  unfold follow_phase
  rcases hf : findAgent m aid with _ | a <;> simp only [hf]
  · exact h
  · rcases hg : a.following_agent with _ | g <;> simp only [hg]
    · exact h
    · rcases hgp : posOf m g with _ | gp <;> simp only [hgp]
      · exact h
      · by_cases hd : manhattan gp p ≤ 5
        · rw [if_pos hd]
          exact OccInv_move_towards m aid gp h
        · rw [if_neg hd]
          exact OccInv_updAgent m aid (fun b => { b with state := AgState.HELP })
            (fun _ => rfl) (fun _ => rfl) h

lemma OccInv_help_phase (now : ℤ) (m : GridModel) (aid : ℕ) (p : Pos) (h : OccInv m) :
    OccInv (help_phase now m aid p) := by
  unfold help_phase
  rcases hf : findAgent m aid with _ | a <;> simp only [hf]
  · exact h
  · have h1 : OccInv (updAgent m aid
        (fun b => { b with asked_memory := (ask_neighbors m p now a.asked_memory).2 })) :=
      OccInv_updAgent m aid _ (fun _ => rfl) (fun _ => rfl) h
    rcases hg : (ask_neighbors m p now a.asked_memory).1 with _ | g <;> simp only [hg]
    · exact OccInv_do_random_constant_move _ aid h1
    · exact OccInv_updAgent _ aid _ (fun _ => rfl) (fun _ => rfl) h1

lemma OccInv_follow_checks (now : ℤ) (m : GridModel) (aid : ℕ) (h : OccInv m) :
    OccInv (follow_checks now m aid) := by
  unfold follow_checks
  rcases hf : findAgent m aid with _ | a <;> simp only [hf]
  · exact h
  · by_cases hs : a.state = AgState.FOLLOWING
    · rw [if_pos hs]
      by_cases ht : 10 < now - a.follow_start_time
      · rw [if_pos ht]
        exact OccInv_updAgent m aid _ (fun _ => rfl) (fun _ => rfl) h
      · rw [if_neg ht]
        rcases hg : a.following_agent with _ | g <;> simp only [hg]
        · exact OccInv_updAgent m aid _ (fun _ => rfl) (fun _ => rfl) h
        · by_cases ha : g ∈ m.active_ids
          · rw [if_pos ha]
            exact h
          · rw [if_neg ha]
            exact OccInv_updAgent m aid _ (fun _ => rfl) (fun _ => rfl) h
    · rw [if_neg hs]
      exact h

lemma OccInv_agent_step (now : ℤ) (m : GridModel) (aid : ℕ) (h : OccInv m) :
    OccInv (agent_step now m aid) := by
  unfold agent_step
  rcases hf : findAgent m aid with _ | a <;> simp only [hf]
  · exact h
  · rcases hp : a.pos with _ | p <;> simp only [hp]
    · exact h
    · by_cases he : a.emergency_triggered = false
      · rw [if_pos he]
        exact OccInv_wander_phase m aid p h
      · rw [if_neg he]
        set m1 := if get_visible_exits m p ≠ [] then
            updAgent m aid (fun b =>
              { b with state := AgState.EVACUATING, following_agent := none })
          else m with hm1
        have h1 : OccInv m1 := by
          rw [hm1]
          by_cases hv : get_visible_exits m p ≠ []
          · rw [if_pos hv]
            exact OccInv_updAgent m aid _ (fun _ => rfl) (fun _ => rfl) h
          · rw [if_neg hv]
            exact h
        have h2 : OccInv (follow_checks now m1 aid) := OccInv_follow_checks now m1 aid h1
        rcases hs : stateOf (follow_checks now m1 aid) aid with _ | st
        · simp only [hs]
          exact h2
        · rcases st with _ | _ | _ <;> simp only [hs]
          · exact OccInv_help_phase now _ aid p h2
          · exact OccInv_follow_phase _ aid p h2
          · exact OccInv_evac_phase _ aid p _ h2

lemma OccInv_monitor_step (now : ℤ) (m : GridModel) (h : OccInv m) :
    OccInv (monitor_step now m) := by
  unfold monitor_step
  by_cases hc : m.monitor_triggered = false ∧ m.emergency_time ≤ now - m.start_time
  · rw [if_pos hc]
    refine @OccInv_congr _ _ rfl rfl
      (OccInv_map m (fun a => if a.id ∈ m.active_ids then { a with emergency_triggered := true } else a)
        (fun a => by by_cases h' : a.id ∈ m.active_ids <;> simp [h'])
        (fun a => by by_cases h' : a.id ∈ m.active_ids <;> simp [h']) h)
  · rw [if_neg hc]
    exact h

lemma OccInv_foldl (now : ℤ) :
    ∀ (l : List ℕ) (m : GridModel), OccInv m → OccInv (l.foldl (agent_step now) m) := by
  intro l
  induction l with
  | nil => intro m h; exact h
  | cons x xs ih => intro m h; exact ih _ (OccInv_agent_step now m x h)

lemma OccInv_step (now : ℤ) (m : GridModel) (h : OccInv m) :
    OccInv (GridModel.step now m) := by
  unfold GridModel.step
  exact OccInv_foldl now _ _ (OccInv_monitor_step now m h)

/-! ### Construction: placement and the fixed fields of `GridModel.init` -/

lemma place_evacs_frame : ∀ (k nid : ℕ) (m : GridModel),
    (place_evacs k nid m).grid_size = m.grid_size ∧
    (place_evacs k nid m).running = m.running ∧
    (place_evacs k nid m).emergency = m.emergency ∧
    (place_evacs k nid m).start_time = m.start_time ∧
    (place_evacs k nid m).emergency_time = m.emergency_time ∧
    (place_evacs k nid m).monitor_triggered = m.monitor_triggered ∧
    (place_evacs k nid m).exits = m.exits := by
  intro k
  induction k with
  | zero => intro nid m; exact ⟨rfl, rfl, rfl, rfl, rfl, rfl, rfl⟩
  | succ k ih =>
    intro nid m
    unfold place_evacs
    rcases hfil : (all_cells m.grid_size).filter (fun c => decide (cell_is_empty m c)) with _ | ⟨c, cs⟩
    · exact ih nid m
    · exact ih (nid + 1) _

lemma OccInv_place_evacs : ∀ (k nid : ℕ) (m : GridModel),
    OccInv m → (∀ a ∈ m.agents, a.id < nid) → OccInv (place_evacs k nid m) := by
  intro k
  induction k with
  | zero => intro nid m h _; exact h
  | succ k ih =>
    intro nid m h hb
    unfold place_evacs
    rcases hfil : (all_cells m.grid_size).filter (fun c => decide (cell_is_empty m c)) with _ | ⟨c, cs⟩
    · exact ih nid m h hb
    · have hmem : (rngChoose m.rand (c :: cs) c).1 ∈ c :: cs := rngChoose_mem m.rand c cs c
      have hempty : cell_is_empty m (rngChoose m.rand (c :: cs) c).1 := by
        have hin : (rngChoose m.rand (c :: cs) c).1 ∈
            (all_cells m.grid_size).filter (fun x => decide (cell_is_empty m x)) := by
          rw [hfil]
          exact hmem
        exact of_decide_eq_true (List.mem_filter.1 hin).2
      obtain ⟨h1, h2, h3⟩ := h
      obtain ⟨hce, hca⟩ := hempty
      apply ih
      · refine ⟨?_, ?_, ?_⟩
        · show (posList (m.agents ++
            [{ id := nid, pos := some (rngChoose m.rand (c :: cs) c).1,
               emergency_triggered := false, direction := none, state := AgState.HELP,
               following_agent := none, follow_start_time := 0, asked_memory := [] }])).Nodup
          rw [show posList (m.agents ++
            [{ id := nid, pos := some (rngChoose m.rand (c :: cs) c).1,
               emergency_triggered := false, direction := none, state := AgState.HELP,
               following_agent := none, follow_start_time := 0, asked_memory := [] }])
              = posList m.agents ++ [(rngChoose m.rand (c :: cs) c).1] by
            simp [posList, List.filterMap_append]]
          refine List.Nodup.append h1 (List.nodup_singleton _) ?_
          intro x hx hxq
          have hxq' : x = (rngChoose m.rand (c :: cs) c).1 := by simpa using hxq
          subst hxq'
          rcases mem_posList.1 hx with ⟨b, hbmem, hbp⟩
          exact hca b hbmem hbp
        · intro q hq
          show q ∉ m.exits
          have hq' : q ∈ posList m.agents ++ [(rngChoose m.rand (c :: cs) c).1] := by
            rw [show posList m.agents ++ [(rngChoose m.rand (c :: cs) c).1]
                = posList (m.agents ++
              [{ id := nid, pos := some (rngChoose m.rand (c :: cs) c).1,
                 emergency_triggered := false, direction := none, state := AgState.HELP,
                 following_agent := none, follow_start_time := 0, asked_memory := [] }]) by
              simp [posList, List.filterMap_append]]
            exact hq
          rcases List.mem_append.1 hq' with hq'' | hq''
          · exact h2 q hq''
          · have : q = (rngChoose m.rand (c :: cs) c).1 := by simpa using hq''
            subst this
            exact hce
        · show ((m.agents ++
            [({ id := nid, pos := some (rngChoose m.rand (c :: cs) c).1,
                emergency_triggered := false, direction := none, state := AgState.HELP,
                following_agent := none, follow_start_time := 0, asked_memory := [] } : EvacAgent)]).map
              (fun a => a.id)).Nodup
          rw [List.map_append]
          refine List.Nodup.append h3 (List.nodup_singleton _) ?_
          intro x hx hxn
          have hxn' : x = nid := by simpa using hxn
          rw [hxn'] at hx
          rcases List.mem_map.1 hx with ⟨b, hbmem, hbid⟩
          have hbid' : b.id = nid := hbid
          exact absurd (hbid' ▸ hb b hbmem) (lt_irrefl nid)
      · intro a ha
        rcases List.mem_append.1 ha with ha' | ha'
        · exact Nat.lt_succ_of_lt (hb a ha')
        · have hsing := List.mem_singleton.1 ha'
          rw [hsing]
          exact Nat.lt_succ_self nid

lemma OccInv_init (gs : ℤ) (seed : ℕ) (et t0 : ℤ) :
    OccInv (GridModel.init gs seed et t0) := by
  unfold GridModel.init
  apply OccInv_place_evacs
  · refine ⟨by simp [posList], by simp [posList], by simp⟩
  · intro a ha
    simp at ha

/-! ### Monitor semantics and the running flag -/

lemma monitor_step_fires_once (now : ℤ) (m : GridModel)
    (h : m.monitor_triggered = true) : monitor_step now m = m := by
  unfold monitor_step
  rw [if_neg]
  intro hc
  rw [h] at hc
  simp at hc

lemma flagOf_monitor_fire (now : ℤ) (m : GridModel) (aid : ℕ) (b : Bool)
    (h1 : m.monitor_triggered = false) (h2 : m.emergency_time ≤ now - m.start_time)
    (ha : aid ∈ m.active_ids) (hf : flagOf m aid = some b) :
    flagOf (monitor_step now m) aid = some true := by
  unfold monitor_step
  rw [if_pos ⟨h1, h2⟩]
  unfold flagOf at *
  have hmap := find_id_map
    (g := fun a => if a.id ∈ m.active_ids then { a with emergency_triggered := true } else a)
    (fun a => by by_cases hc : a.id ∈ m.active_ids <;> simp [hc]) aid m.agents
  show ((m.agents.map _).find? _).map _ = some true
  rw [hmap]
  rcases hfa : findAgent m aid with _ | a
  · rw [hfa] at hf
    cases hf
  · have haid : a.id = aid := by
      have := List.find?_some hfa
      simpa using this
    unfold findAgent at hfa
    rw [hfa]
    simp [haid, ha]

lemma flagOf_monitor_mono (now : ℤ) (m : GridModel) (aid : ℕ)
    (hf : flagOf m aid = some true) :
    flagOf (monitor_step now m) aid = some true := by
  unfold monitor_step
  by_cases hc : m.monitor_triggered = false ∧ m.emergency_time ≤ now - m.start_time
  · rw [if_pos hc]
    unfold flagOf at *
    have hmap := find_id_map
      (g := fun a => if a.id ∈ m.active_ids then { a with emergency_triggered := true } else a)
      (fun a => by by_cases hc' : a.id ∈ m.active_ids <;> simp [hc']) aid m.agents
    show ((m.agents.map _).find? _).map _ = some true
    rw [hmap]
    rcases hfa : findAgent m aid with _ | a
    · rw [hfa] at hf
      cases hf
    · rw [hfa] at hf
      have hflag : a.emergency_triggered = true := by simpa using hf
      simp only [Option.map_map, Option.map_eq_some']
      by_cases hin : a.id ∈ m.active_ids
      · exact ⟨a, hfa, by simp [hin]⟩
      · exact ⟨a, hfa, by simp [hin, hflag]⟩
  · rw [if_neg hc]
    exact hf

lemma flagOf_foldl (now : ℤ) :
    ∀ (l : List ℕ) (m : GridModel) (aid : ℕ),
      flagOf (l.foldl (agent_step now) m) aid = flagOf m aid := by
  intro l
  induction l with
  | nil => intro m aid; rfl
  | cons x xs ih =>
    intro m aid
    show flagOf (xs.foldl (agent_step now) (agent_step now m x)) aid = flagOf m aid
    rw [ih (agent_step now m x) aid]
    exact (obsEq_agent_step now m x).2 aid

lemma monitor_step_running (now : ℤ) (m : GridModel) :
    (monitor_step now m).running = m.running ∧ (monitor_step now m).exits = m.exits := by
  unfold monitor_step
  by_cases hc : m.monitor_triggered = false ∧ m.emergency_time ≤ now - m.start_time
  · rw [if_pos hc]
    exact ⟨rfl, rfl⟩
  · rw [if_neg hc]
    exact ⟨rfl, rfl⟩

lemma running_foldl (now : ℤ) :
    ∀ (l : List ℕ) (m : GridModel),
      (l.foldl (agent_step now) m).running = m.running ∧
      (l.foldl (agent_step now) m).exits = m.exits := by
  intro l
  induction l with
  | nil => intro m; exact ⟨rfl, rfl⟩
  | cons x xs ih =>
    intro m
    have h1 := ih (agent_step now m x)
    have h2 := (obsEq_agent_step now m x).1
    constructor
    · show (xs.foldl (agent_step now) (agent_step now m x)).running = m.running
      rw [h1.1]
      exact congrArg (fun t => t.2.1) h2
    · show (xs.foldl (agent_step now) (agent_step now m x)).exits = m.exits
      rw [h1.2]
      exact congrArg (fun t => t.2.2.2.2.2.2) h2

/-! ### Equations for the movement dispatch -/

lemma move_towards_eq (m : GridModel) (aid : ℕ) (a : EvacAgent) (p t : Pos)
    (ha : findAgent m aid = some a) (hp : a.pos = some p) :
    move_towards m aid t = try_candidates m aid (move_candidates p t) := by
  unfold move_towards
  simp only [ha, hp]

lemma findAgent_move_self (m : GridModel) (aid : ℕ) (c : Pos) (b : EvacAgent)
    (hb : findAgent m aid = some b) :
    findAgent (move_agent m aid c) aid = some { b with pos := some c } := by
  rw [findAgent_move_agent, hb]
  have hbid : b.id = aid := by
    have := List.find?_some hb
    simpa using this
  simp [hbid]

lemma check_exit_not_exit (m : GridModel) (aid : ℕ) (c : Pos) (hx : c ∉ m.exits) :
    check_exit (move_agent m aid c) aid = (false, move_agent m aid c) := by
  unfold check_exit
  rcases hf : findAgent (move_agent m aid c) aid with _ | a'
  · rfl
  · rcases hb : findAgent m aid with _ | b
    · rw [findAgent_move_agent, hb] at hf
      cases hf
    · rw [findAgent_move_self m aid c b hb] at hf
      have ha' : a' = { b with pos := some c } := (Option.some.inj hf).symm
      rw [ha']
      have hx' : c ∉ (move_agent m aid c).exits := hx
      show (if c ∈ (move_agent m aid c).exits then _ else _) = _
      rw [if_neg hx']

lemma check_exit_at_exit (m : GridModel) (aid : ℕ) (a : EvacAgent) (p : Pos)
    (ha : findAgent m aid = some a) (hp : a.pos = some p) (hx : p ∈ m.exits) :
    check_exit m aid =
      (true, { grid_remove m aid with active_ids := m.active_ids.erase aid }) := by
  unfold check_exit
  simp only [ha, hp]
  rw [if_pos hx]

/-! ### The ask-neighbors scan -/

lemma lookup_cons_ne (k j : ℕ) (v : ℤ) (mem : List (ℕ × ℤ)) (h : j ≠ k) :
    ((j, v) :: mem).lookup k = mem.lookup k := by
  have hbeq : (k == j) = false := by simp [Ne.symm h]
  simp [List.lookup, hbeq]

lemma lookup_cons_self (k : ℕ) (v : ℤ) (mem : List (ℕ × ℤ)) :
    ((k, v) :: mem).lookup k = some v := by
  simp [List.lookup]

lemma qualifies_cons_ne (m : GridModel) (now : ℤ) (j : ℕ) (v : ℤ) (mem : List (ℕ × ℤ))
    (x : EvacAgent) (h : x.id ≠ j) :
    qualifies m now ((j, v) :: mem) x ↔ qualifies m now mem x := by
  unfold qualifies
  rw [lookup_cons_ne x.id j v mem (Ne.symm h)]

lemma find?_congr_pred {α : Type} (p q : α → Bool) :
    ∀ l : List α, (∀ x ∈ l, p x = q x) → l.find? p = l.find? q := by
  intro l
  induction l with
  | nil => intro; rfl
  | cons a l ih =>
    intro h
    by_cases hq : q a = true
    · simp [List.find?_cons, h a (List.mem_cons_self a l), hq]
    · have hq' : q a = false := by simpa using hq
      simp only [List.find?_cons, h a (List.mem_cons_self a l), hq']
      exact ih (fun x hx => h x (List.mem_cons_of_mem a hx))

lemma takeWhile_congr_pred {α : Type} (p q : α → Bool) :
    ∀ l : List α, (∀ x ∈ l, p x = q x) → l.takeWhile p = l.takeWhile q := by
  intro l
  induction l with
  | nil => intro; rfl
  | cons a l ih =>
    intro h
    by_cases hq : q a = true
    · simp only [List.takeWhile_cons, h a (List.mem_cons_self a l), hq]
      rw [ih (fun x hx => h x (List.mem_cons_of_mem a hx))]
    · have hq' : q a = false := by simpa using hq
      simp [List.takeWhile_cons, h a (List.mem_cons_self a l), hq']

lemma ask_scan_lookup_stable (m : GridModel) (now : ℤ) :
    ∀ (ns : List EvacAgent) (mem : List (ℕ × ℤ)) (k : ℕ), (∀ x ∈ ns, x.id ≠ k) →
      (ask_scan m now mem ns).2.lookup k = mem.lookup k := by
  intro ns
  induction ns with
  | nil => intro mem k _; rfl
  | cons n ns ih =>
    intro mem k h
    have hnk : n.id ≠ k := h n (List.mem_cons_self n ns)
    have htail : ∀ x ∈ ns, x.id ≠ k := fun x hx => h x (List.mem_cons_of_mem n hx)
    simp only [ask_scan]
    by_cases hq : qualifies m now mem n
    · rw [if_pos hq]
      by_cases hv : has_visible_exit m n
      · rw [if_pos hv]
        exact lookup_cons_ne k n.id now mem hnk
      · rw [if_neg hv]
        rw [ih ((n.id, now) :: mem) k htail]
        exact lookup_cons_ne k n.id now mem hnk
    · rw [if_neg hq]
      exact ih mem k htail

lemma ask_scan_spec (m : GridModel) (now : ℤ) :
    ∀ (ns : List EvacAgent) (mem : List (ℕ × ℤ)), (ns.map (fun a => a.id)).Nodup →
      (ask_scan m now mem ns).1 =
        (ns.find? (fun n => decide (qualifies m now mem n ∧ has_visible_exit m n))).map
          (fun n => n.id) ∧
      (∀ n ∈ ns.takeWhile (fun n => !(decide (qualifies m now mem n ∧ has_visible_exit m n))),
        qualifies m now mem n → (ask_scan m now mem ns).2.lookup n.id = some now) ∧
      (∀ g, (ask_scan m now mem ns).1 = some g →
        (ask_scan m now mem ns).2.lookup g = some now) := by
  intro ns
  induction ns with
  | nil =>
    intro mem _
    refine ⟨rfl, ?_, ?_⟩
    · intro n hn
      simp at hn
    · intro g hg
      cases hg
  | cons n ns ih =>
    intro mem hnod
    have hnod' : (ns.map (fun a => a.id)).Nodup := (List.nodup_cons.1 hnod).2
    have hne : ∀ x ∈ ns, x.id ≠ n.id := by
      intro x hx he
      apply (List.nodup_cons.1 hnod).1
      have hmem : x.id ∈ ns.map (fun a => a.id) := List.mem_map_of_mem (fun a => a.id) hx
      rwa [he] at hmem
    by_cases hq : qualifies m now mem n
    · by_cases hv : has_visible_exit m n
      · have hpred : decide (qualifies m now mem n ∧ has_visible_exit m n) = true := by
          simp [hq, hv]
        simp only [ask_scan, if_pos hq, if_pos hv]
        refine ⟨?_, ?_, ?_⟩
        · have hpred2 : (decide (qualifies m now mem n) && decide (has_visible_exit m n)) = true := by
            simp [hq, hv]
          simp [List.find?_cons, hpred2]
        · intro x hx
          simp only [List.takeWhile_cons, hpred, Bool.not_true, if_false] at hx
          simp at hx
        · intro g hg
          have hgn : g = n.id := (Option.some.inj hg).symm
          rw [hgn]
          exact lookup_cons_self n.id now mem
      · have hpred : decide (qualifies m now mem n ∧ has_visible_exit m n) = false := by
          simp [hv]
        simp only [ask_scan, if_pos hq, if_neg hv]
        have hqp : ∀ x ∈ ns, (qualifies m now ((n.id, now) :: mem) x ↔ qualifies m now mem x) :=
          fun x hx => qualifies_cons_ne m now n.id now mem x (hne x hx)
        have hpredeq : ∀ x ∈ ns,
            (decide (qualifies m now ((n.id, now) :: mem) x ∧ has_visible_exit m x))
            = (decide (qualifies m now mem x ∧ has_visible_exit m x)) := by
          intro x hx
          rw [decide_eq_decide]
          exact and_congr_left (fun _ => hqp x hx)
        rcases ih ((n.id, now) :: mem) hnod' with ⟨ih1, ih2, ih3⟩
        refine ⟨?_, ?_, ?_⟩
        · rw [ih1, find?_congr_pred _ _ ns hpredeq]
          have hpred2 : (decide (qualifies m now mem n) && decide (has_visible_exit m n)) = false := by
            simp [hv]
          simp [List.find?_cons, hpred2]
        · intro x hx hqx
          simp only [List.takeWhile_cons, hpred, Bool.not_false, if_true] at hx
          rcases List.mem_cons.1 hx with hx' | hx'
          · rw [hx']
            rw [ask_scan_lookup_stable m now ns ((n.id, now) :: mem) n.id hne]
            exact lookup_cons_self n.id now mem
          · have htke : ns.takeWhile
                (fun x => !(decide (qualifies m now ((n.id, now) :: mem) x ∧ has_visible_exit m x)))
                = ns.takeWhile
                (fun x => !(decide (qualifies m now mem x ∧ has_visible_exit m x))) :=
              takeWhile_congr_pred _ _ ns (fun x hx => by rw [hpredeq x hx])
            apply ih2 x
            · rw [htke]
              exact hx'
            · have hxns : x ∈ ns := (List.takeWhile_sublist _).subset hx'
              exact (hqp x hxns).2 hqx
        · intro g hg
          exact ih3 g hg
    · have hpred : decide (qualifies m now mem n ∧ has_visible_exit m n) = false := by
        simp [hq]
      simp only [ask_scan, if_neg hq]
      rcases ih mem hnod' with ⟨ih1, ih2, ih3⟩
      refine ⟨?_, ?_, ?_⟩
      · rw [ih1]
        have hpred2 : (decide (qualifies m now mem n) && decide (has_visible_exit m n)) = false := by
          simp [hq]
        simp [List.find?_cons, hpred2]
      · intro x hx hqx
        simp only [List.takeWhile_cons, hpred, Bool.not_false, if_true] at hx
        rcases List.mem_cons.1 hx with hx' | hx'
        · rw [hx'] at hqx
          exact absurd hqx hq
        · exact ih2 x hx' hqx
      · exact ih3

/-! ### Remaining helper equations -/

lemma evac_phase_eq (m : GridModel) (aid : ℕ) (p : Pos) (visible : List Pos) (e : Pos)
    (hc : closest_exit p visible = some e) :
    evac_phase m aid p visible =
      (if (move_towards m aid e).1 then (move_towards m aid e).2
       else
        match best_free_step_towards_exit m p e with
        | some c => (check_exit (move_agent m aid c) aid).2
        | none => m) := by
  unfold evac_phase
  simp only [hc]

lemma moore_neighbors_mem (m : GridModel) (p : Pos) :
    ∀ n ∈ moore_neighbors m p, n ∈ m.agents ∧ ∃ q, n.pos = some q ∧ q ≠ p ∧
      (q.1 - p.1).natAbs ≤ 5 ∧ (q.2 - p.2).natAbs ≤ 5 := by
  intro n hn
  unfold moore_neighbors at hn
  have h1 := List.mem_filter.1 hn
  refine ⟨h1.1, ?_⟩
  have h2 := h1.2
  rcases hq : n.pos with _ | q
  · rw [hq] at h2
    cases h2
  · rw [hq] at h2
    exact ⟨q, rfl, of_decide_eq_true h2⟩

/-! ### The claims -/

/-- C1: the source never manages the claimed run-termination interface.
`GridModel.__init__` leaves `running` at the `true` that `mesa.Model.__init__`
sets, and `GridModel.step` never writes it, so `running` stays `true` forever
regardless of the active pool; no `get_evacuation_steps` method exists on
`GridModel`, so the batch driver's call to it cannot return a tick count. -/
theorem gridmodel_running_never_cleared :
    (∀ (gs : ℤ) (seed : ℕ) (et t0 : ℤ), (GridModel.init gs seed et t0).running = true) ∧
    (∀ (now : ℤ) (m : GridModel), (GridModel.step now m).running = m.running) := by
  constructor
  · intro gs seed et t0
    exact (place_evacs_frame NUM_AGENTS 0 _).2.1
  · intro now m
    unfold GridModel.step
    exact (running_foldl now _ _).1.trans (monitor_step_running now m).1

/-- C2: construction takes only a grid size, a seed and an emergency time;
the exit markers are hardcoded to the two opposite corners for every choice
of arguments, so exit positions are not a constructor parameter (and the
batch driver's `exit_positions=` keyword call cannot be accepted). The
orchestrator starts fresh: emergency off, monitor untriggered. -/
theorem gridmodel_exits_hardcoded :
    ∀ (gs : ℤ) (seed : ℕ) (et t0 : ℤ),
      (GridModel.init gs seed et t0).exits = [(0, 0), (gs - 1, gs - 1)] ∧
      (GridModel.init gs seed et t0).emergency = false ∧
      (GridModel.init gs seed et t0).monitor_triggered = false := by
  intro gs seed et t0
  exact ⟨(place_evacs_frame NUM_AGENTS 0 _).2.2.2.2.2.2,
    (place_evacs_frame NUM_AGENTS 0 _).2.2.1,
    (place_evacs_frame NUM_AGENTS 0 _).2.2.2.2.2.1⟩

/-- C7: after construction no two placed evacuees share a cell and none
stands on an exit marker, and one full tick of the orchestrator (monitor
sweep plus every agent's step over the snapshot of the pool) preserves this:
every movement rule targets an empty cell or an exit cell, and an arrival at
an exit cell is followed by immediate removal from the grid. -/
theorem single_occupancy_invariant :
    (∀ (gs : ℤ) (seed : ℕ) (et t0 : ℤ), OccInv (GridModel.init gs seed et t0)) ∧
    (∀ (now : ℤ) (m : GridModel), OccInv m → OccInv (GridModel.step now m)) :=
  ⟨fun gs seed et t0 => OccInv_init gs seed et t0,
   fun now m h => OccInv_step now m h⟩

/-- C7 witness: a concrete two-evacuee state satisfies the invariant and
still satisfies it after a full tick. -/
theorem single_occupancy_invariant_witness :
    OccInv mC7 ∧ OccInv (GridModel.step 50 mC7) :=
  ⟨by decide, single_occupancy_invariant.2 50 mC7 (by decide)⟩

/-- C8 counterexample: a non-positive emergency time is not rejected —
construction with `emergency_time = 0` (the batch driver's documented
setting) yields a perfectly ordinary orchestrator with all ten evacuees
placed. -/
theorem construction_accepts_nonpositive_cex :
    (GridModel.init 10 42 0 0).emergency_time = 0 ∧
    (GridModel.init 10 42 0 0).running = true ∧
    (GridModel.init 10 42 0 0).active_ids.length = NUM_AGENTS := by
  refine ⟨by decide, by decide, by decide⟩

/-- C8 as amended: construction performs no validation of the emergency
time — any non-positive value is accepted and produces a normally
constructed, running orchestrator with the monitor untriggered. -/
theorem construction_no_validation (gs : ℤ) (seed : ℕ) (et t0 : ℤ) (h : et ≤ 0) :
    (GridModel.init gs seed et t0).emergency_time = et ∧
    (GridModel.init gs seed et t0).running = true ∧
    (GridModel.init gs seed et t0).monitor_triggered = false :=
  ⟨(place_evacs_frame NUM_AGENTS 0 _).2.2.2.2.1,
   (place_evacs_frame NUM_AGENTS 0 _).2.1,
   (place_evacs_frame NUM_AGENTS 0 _).2.2.2.2.2.1⟩

/-- C8 witness: instantiation at the negative emergency time `-3`. -/
theorem construction_no_validation_witness :
    ((-3 : ℤ) ≤ 0) ∧ ((GridModel.init 10 42 (-3) 0).emergency_time = -3 ∧
      (GridModel.init 10 42 (-3) 0).running = true ∧
      (GridModel.init 10 42 (-3) 0).monitor_triggered = false) :=
  ⟨by decide, construction_no_validation 10 42 (-3) 0 (by decide)⟩

/-- C4: the emergency monitor fires at most once (a triggered monitor's step
is a no-op), the first step at which the elapsed time reaches the threshold
sets the monitor and shared emergency flags and marks every currently active
evacuee in one sweep, agent steps never change any evacuee's emergency flag,
and a set flag survives every later full tick — so each evacuee's flag goes
`false` to `true` at most once and never reverts. -/
theorem emergency_monitor_semantics :
    (∀ (now : ℤ) (m : GridModel), m.monitor_triggered = true → monitor_step now m = m) ∧
    (∀ (now : ℤ) (m : GridModel) (aid : ℕ) (b : Bool),
        m.monitor_triggered = false → m.emergency_time ≤ now - m.start_time →
        aid ∈ m.active_ids → flagOf m aid = some b →
        (monitor_step now m).monitor_triggered = true ∧
        (monitor_step now m).emergency = true ∧
        flagOf (monitor_step now m) aid = some true) ∧
    (∀ (now : ℤ) (m : GridModel) (aid : ℕ),
        flagOf m aid = some true → flagOf (GridModel.step now m) aid = some true) ∧
    (∀ (now : ℤ) (m : GridModel) (x aid : ℕ),
        flagOf (agent_step now m x) aid = flagOf m aid) := by
  refine ⟨monitor_step_fires_once, ?_, ?_, ?_⟩
  · intro now m aid b h1 h2 ha hf
    refine ⟨?_, ?_, flagOf_monitor_fire now m aid b h1 h2 ha hf⟩
    · unfold monitor_step
      rw [if_pos ⟨h1, h2⟩]
    · unfold monitor_step
      rw [if_pos ⟨h1, h2⟩]
  · intro now m aid hf
    unfold GridModel.step
    rw [flagOf_foldl now _ _ aid]
    exact flagOf_monitor_mono now m aid hf
  · intro now m x aid
    exact (obsEq_agent_step now m x).2 aid

/-- C4 witness: a triggered monitor is inert; firing at `now = 20` marks the
active evacuee 0; a set flag survives a full tick; an agent step leaves
flags unchanged. -/
theorem emergency_monitor_semantics_witness :
    (mC4b.monitor_triggered = true ∧ monitor_step 5 mC4b = mC4b) ∧
    flagOf (monitor_step 20 mC4) 0 = some true ∧
    (flagOf mC4 1 = some true ∧ flagOf (GridModel.step 20 mC4) 1 = some true) ∧
    flagOf (agent_step 20 mC4 0) 1 = flagOf mC4 1 :=
  ⟨⟨by decide, emergency_monitor_semantics.1 5 mC4b (by decide)⟩,
   (emergency_monitor_semantics.2.1 20 mC4 0 false (by decide) (by decide)
      (by decide) (by decide)).2.2,
   ⟨by decide, emergency_monitor_semantics.2.2.1 20 mC4 1 (by decide)⟩,
   emergency_monitor_semantics.2.2.2 20 mC4 0 1⟩

/-- C10: exit markers are permanent (a full tick never changes the exit
registry); the fallback step only ever returns an in-bounds empty cell, hence
never an exit cell; the exit check run after moving to a non-exit cell
removes nothing; consequently, when the direct greedy move fails and the
fallback fires, the whole evacuating dispatch is exactly the fallback move —
the active pool is untouched, so removal can only come from a successful
direct greedy move onto an exit cell. -/
theorem fallback_never_reaches_exit :
    (∀ (now : ℤ) (m : GridModel), (GridModel.step now m).exits = m.exits) ∧
    (∀ (m : GridModel) (p t c : Pos), best_free_step_towards_exit m p t = some c →
        ¬ is_exit_cell m c ∧ cell_is_empty m c) ∧
    (∀ (m : GridModel) (aid : ℕ) (c : Pos), c ∉ m.exits →
        check_exit (move_agent m aid c) aid = (false, move_agent m aid c)) ∧
    (∀ (m : GridModel) (aid : ℕ) (p e : Pos) (visible : List Pos) (c : Pos),
        closest_exit p visible = some e → (move_towards m aid e).1 = false →
        best_free_step_towards_exit m p e = some c →
        evac_phase m aid p visible = move_agent m aid c ∧
        (evac_phase m aid p visible).active_ids = m.active_ids) := by
  refine ⟨?_, ?_, ?_, ?_⟩
  · intro now m
    unfold GridModel.step
    exact (running_foldl now _ _).2.trans (monitor_step_running now m).2
  · intro m p t c hb
    have hspec := free_neighbors_spec m p c (best_free_step_mem m p t c hb).1
    exact ⟨hspec.2.1, hspec.2⟩
  · intro m aid c hx
    exact check_exit_not_exit m aid c hx
  · intro m aid p e visible c hc hm hb
    have hempty := (free_neighbors_spec m p c (best_free_step_mem m p e c hb).1).2
    have hce := check_exit_not_exit m aid c hempty.1
    have heq : evac_phase m aid p visible = move_agent m aid c := by
      rw [evac_phase_eq m aid p visible e hc, hm]
      simp only [Bool.false_eq_true, if_false, hb, hce]
    exact ⟨heq, by rw [heq]; rfl⟩

/-- C10 witness: with both direct candidates toward the corner exit occupied,
the evacuating dispatch performs exactly the fallback move to the free
neighbor `(2, 1)` and leaves the active pool unchanged. -/
theorem fallback_never_reaches_exit_witness :
    (move_towards mC10 0 (0, 0)).1 = false ∧
    best_free_step_towards_exit mC10 (1, 1) (0, 0) = some (2, 1) ∧
    (evac_phase mC10 0 (1, 1) [(0, 0)] = move_agent mC10 0 (2, 1) ∧
      (evac_phase mC10 0 (1, 1) [(0, 0)]).active_ids = mC10.active_ids) :=
  ⟨by decide, by decide,
   fallback_never_reaches_exit.2.2.2 mC10 0 (1, 1) (0, 0) [(0, 0)] (2, 1)
     (by decide) (by decide) (by decide)⟩

/-- C3 counterexample: removal is not deferred to the end of the tick.  In
the concrete state `mC3`, the full tick is the fold of the per-agent steps
over the snapshot `[0, 1]`; after agent 0's own step — before agent 1 has
stepped — agent 0 is already gone from the active pool and from the grid. -/
theorem removal_not_deferred_cex :
    GridModel.step 100 mC3 = agent_step 100 (agent_step 100 (monitor_step 100 mC3) 0) 1 ∧
    0 ∉ (agent_step 100 (monitor_step 100 mC3) 0).active_ids ∧
    posOf (agent_step 100 (monitor_step 100 mC3) 0) 0 = none ∧
    1 ∈ (monitor_step 100 mC3).active_ids :=
  ⟨rfl, by decide, by decide, by decide⟩

/-- C3 as amended: an evacuee that moves onto an exit marker is detached from
the grid and from the active pool immediately, inside its own step — the
accepted candidate of `move_towards` is followed at once by `check_exit`,
which erases the agent from the pool and clears its grid position on the
spot. -/
theorem removal_is_immediate :
    (∀ (m : GridModel) (aid : ℕ) (c : Pos) (cs : List Pos), accept m c →
        try_candidates m aid (c :: cs) =
          (true, (check_exit (move_agent m aid c) aid).2)) ∧
    (∀ (m : GridModel) (aid : ℕ) (a : EvacAgent) (p : Pos),
        findAgent m aid = some a → a.pos = some p → p ∈ m.exits →
        (check_exit m aid).1 = true ∧
        (check_exit m aid).2.active_ids = m.active_ids.erase aid ∧
        posOf (check_exit m aid).2 aid = none) := by
  constructor
  · intro m aid c cs hacc
    simp only [try_candidates, if_pos hacc]
  · intro m aid a p ha hp hx
    rw [check_exit_at_exit m aid a p ha hp hx]
    refine ⟨rfl, rfl, ?_⟩
    show posOf (grid_remove m aid) aid = none
    unfold posOf grid_remove
    rw [findAgent_updAgent m aid (fun b => { b with pos := none }) (fun _ => rfl) aid, ha]
    have haid : a.id = aid := by
      have := List.find?_some ha
      simpa using this
    simp [haid]

/-- C3 witness: in the single-agent state `mC3b`, whose evacuee stands on the
corner exit, `check_exit` removes it from pool and grid at once; and an
accepted exit candidate makes `try_candidates` move-and-check in one step. -/
theorem removal_is_immediate_witness :
    (accept mC3 (0, 0) ∧
      try_candidates mC3 0 [(0, 0)] =
        (true, (check_exit (move_agent mC3 0 (0, 0)) 0).2)) ∧
    (findAgent mC3b 0 = some aC3b ∧
      (check_exit mC3b 0).1 = true ∧
      (check_exit mC3b 0).2.active_ids = mC3b.active_ids.erase 0 ∧
      posOf (check_exit mC3b 0).2 0 = none) :=
  ⟨⟨by decide, removal_is_immediate.1 mC3 0 (0, 0) [] (by decide)⟩,
   ⟨by decide,
    removal_is_immediate.2 mC3b 0 aC3b (0, 0) (by decide) (by decide) (by decide)⟩⟩

/-- C5: for an evacuating agent at `p` whose closest visible exit is `e`, the
direct greedy move goes to the first of the (x-first) unit-step candidates
that is in bounds and empty-or-exit (`accept`); with no acceptable candidate
the move fails and changes nothing; a failed direct move followed by a
successful fallback moves to an in-bounds, currently empty orthogonal
neighbor minimizing the Manhattan distance to `e`; and with no free neighbor
the agent stays in place, with no error. -/
theorem greedy_and_fallback_movement (m : GridModel) (aid : ℕ) (a : EvacAgent)
    (p e : Pos) (visible : List Pos)
    (ha : findAgent m aid = some a) (hp : a.pos = some p)
    (hc : closest_exit p visible = some e) :
    (∀ c, (move_candidates p e).find? (fun c => decide (accept m c)) = some c →
        move_towards m aid e = (true, (check_exit (move_agent m aid c) aid).2)) ∧
    ((move_candidates p e).find? (fun c => decide (accept m c)) = none →
        move_towards m aid e = (false, m)) ∧
    ((move_towards m aid e).1 = false →
      (∀ c, best_free_step_towards_exit m p e = some c →
          evac_phase m aid p visible = (check_exit (move_agent m aid c) aid).2 ∧
          c ∈ free_neighbors m p ∧ ¬ out_of_bounds m c ∧ cell_is_empty m c ∧
          (∀ d ∈ free_neighbors m p, manhattan c e ≤ manhattan d e)) ∧
      (best_free_step_towards_exit m p e = none →
          free_neighbors m p = [] ∧ evac_phase m aid p visible = m)) := by
  refine ⟨?_, ?_, ?_⟩
  · intro c hfind
    rw [move_towards_eq m aid a p e ha hp, try_candidates_eq m aid (move_candidates p e), hfind]
  · intro hfind
    rw [move_towards_eq m aid a p e ha hp, try_candidates_eq m aid (move_candidates p e), hfind]
  · intro hm
    constructor
    · intro c hb
      have hbm := best_free_step_mem m p e c hb
      have hspec := free_neighbors_spec m p c hbm.1
      refine ⟨?_, hbm.1, hspec.1, hspec.2, hbm.2⟩
      rw [evac_phase_eq m aid p visible e hc, hm]
      simp only [Bool.false_eq_true, if_false, hb]
    · intro hb
      have hfree : free_neighbors m p = [] := by
        unfold best_free_step_towards_exit at hb
        rcases hfr : free_neighbors m p with _ | ⟨f, fs⟩
        · rfl
        · rw [hfr] at hb
          cases hb
      refine ⟨hfree, ?_⟩
      rw [evac_phase_eq m aid p visible e hc, hm]
      simp only [Bool.false_eq_true, if_false, hb]

/-- C5 witness: the evacuee at `(2, 0)` heading for the corner exit has the
single candidate `(1, 0)`, which is accepted first, and the direct greedy
move takes it. -/
theorem greedy_and_fallback_movement_witness :
    (move_candidates (2, 0) (0, 0)).find? (fun c => decide (accept mC5 c)) = some (1, 0) ∧
    move_towards mC5 0 (0, 0) = (true, (check_exit (move_agent mC5 0 (1, 0)) 0).2) :=
  ⟨by decide,
   (greedy_and_fallback_movement mC5 0 aC5 (2, 0) (0, 0) [(0, 0)] (by decide) (by decide)
      (by decide)).1 (1, 0) (by decide)⟩

/-- C6: the ask-neighbors scan runs over the placed evacuees of the Moore
radius-5 neighborhood (center cell excluded); a candidate qualifies exactly
when it is active and was never asked or was last asked more than 3 seconds
ago; the returned guide is the first qualifying candidate in iteration order
that itself has a visible exit, the scan stopping there; and every
qualifying candidate scanned — those before the guide, and the guide
itself — is recorded as asked at the current time, regardless of outcome. -/
theorem ask_neighbors_scan (m : GridModel) (p : Pos) (now : ℤ) (mem : List (ℕ × ℤ))
    (hnow : 3 < now)
    (hnd : ((moore_neighbors m p).map (fun a => a.id)).Nodup) :
    (∀ n ∈ moore_neighbors m p, n ∈ m.agents ∧ ∃ q, n.pos = some q ∧ q ≠ p ∧
        (q.1 - p.1).natAbs ≤ 5 ∧ (q.2 - p.2).natAbs ≤ 5) ∧
    (∀ n : EvacAgent, qualifies m now mem n ↔
        (n.id ∈ m.active_ids ∧ (mem.lookup n.id = none ∨
          3 < now - ((mem.lookup n.id).getD 0)))) ∧
    (ask_neighbors m p now mem).1 =
      ((moore_neighbors m p).find?
        (fun n => decide (qualifies m now mem n ∧ has_visible_exit m n))).map
        (fun n => n.id) ∧
    (∀ n ∈ (moore_neighbors m p).takeWhile
        (fun n => !(decide (qualifies m now mem n ∧ has_visible_exit m n))),
      qualifies m now mem n → (ask_neighbors m p now mem).2.lookup n.id = some now) ∧
    (∀ g, (ask_neighbors m p now mem).1 = some g →
      (ask_neighbors m p now mem).2.lookup g = some now) := by
  have hspec := ask_scan_spec m now (moore_neighbors m p) mem hnd
  refine ⟨moore_neighbors_mem m p, ?_, hspec.1, hspec.2.1, hspec.2.2⟩
  intro n
  unfold qualifies
  rcases hlk : mem.lookup n.id with _ | v
  · simp [hnow]
  · simp

/-- C6 witness: the asker at `(5, 5)` with an empty cooldown ledger finds its
guide as the first qualifying candidate with a visible exit. -/
theorem ask_neighbors_scan_witness :
    ((3 : ℤ) < 100 ∧ ((moore_neighbors mC6 (5, 5)).map (fun a => a.id)).Nodup) ∧
    (ask_neighbors mC6 (5, 5) 100 []).1 =
      ((moore_neighbors mC6 (5, 5)).find?
        (fun n => decide (qualifies mC6 100 [] n ∧ has_visible_exit mC6 n))).map
        (fun n => n.id) :=
  ⟨⟨by decide, by decide⟩,
   (ask_neighbors_scan mC6 (5, 5) 100 [] (by decide) (by decide)).2.2.1⟩

/-- C9: a following evacuee with no visible exit whose guide is still active
and not timed out but farther than Manhattan distance 5 reverts to HELP this
tick while `following_agent` keeps pointing at the old guide (a stale
reference persists); by contrast, the 10-second-timeout check reverts to
HELP and clears `following_agent` to none. -/
theorem following_lost_contact_stale_target (now : ℤ) (m : GridModel) (aid g : ℕ)
    (a : EvacAgent) (p gp : Pos)
    (ha : findAgent m aid = some a) (hp : a.pos = some p)
    (htr : a.emergency_triggered = true)
    (hv : get_visible_exits m p = [])
    (hs : a.state = AgState.FOLLOWING)
    (hg : a.following_agent = some g) :
    ((¬ 10 < now - a.follow_start_time) → g ∈ m.active_ids → posOf m g = some gp →
      5 < manhattan gp p →
      stateOf (agent_step now m aid) aid = some AgState.HELP ∧
      followingOf (agent_step now m aid) aid = some (some g)) ∧
    (10 < now - a.follow_start_time →
      stateOf (follow_checks now m aid) aid = some AgState.HELP ∧
      followingOf (follow_checks now m aid) aid = some none) := by
  have haid : a.id = aid := by
    have := List.find?_some ha
    simpa using this
  constructor
  · intro hnt hact hgp hdist
    have hfc : follow_checks now m aid = m := by
      unfold follow_checks
      simp only [ha]
      rw [if_pos hs, if_neg hnt]
      simp only [hg]
      rw [if_pos hact]
    have hsof : stateOf m aid = some AgState.FOLLOWING := by
      unfold stateOf
      rw [ha]
      simp [hs]
    have hfp : follow_phase m aid p =
        updAgent m aid (fun b => { b with state := AgState.HELP }) := by
      unfold follow_phase
      simp only [ha, hg, hgp]
      rw [if_neg (not_le.mpr hdist)]
    have hstep : agent_step now m aid = follow_phase m aid p := by
      unfold agent_step
      simp only [ha, hp]
      rw [if_neg (by simp [htr])]
      simp only [hv]
      rw [if_neg (by simp)]
      rw [hfc, hsof]
    have hupd : findAgent (updAgent m aid (fun b => { b with state := AgState.HELP })) aid
        = some { a with state := AgState.HELP } := by
      rw [findAgent_updAgent m aid (fun b => { b with state := AgState.HELP })
        (fun _ => rfl) aid, ha]
      simp [haid]
    rw [hstep, hfp]
    constructor
    · unfold stateOf
      rw [hupd]
      rfl
    · unfold followingOf
      rw [hupd]
      simp [hg]
  · intro ht
    have hfc2 : follow_checks now m aid =
        updAgent m aid (fun b => { b with state := AgState.HELP, following_agent := none }) := by
      unfold follow_checks
      simp only [ha]
      rw [if_pos hs, if_pos ht]
    have hupd2 : findAgent (updAgent m aid
        (fun b => { b with state := AgState.HELP, following_agent := none })) aid
        = some { a with state := AgState.HELP, following_agent := none } := by
      rw [findAgent_updAgent m aid
        (fun b => { b with state := AgState.HELP, following_agent := none })
        (fun _ => rfl) aid, ha]
      simp [haid]
    rw [hfc2]
    constructor
    · unfold stateOf
      rw [hupd2]
      rfl
    · unfold followingOf
      rw [hupd2]
      rfl

/-- C9 witness: agent 0 follows agent 1 at Manhattan distance 6; this tick it
reverts to HELP but its `following_agent` still points at agent 1. -/
theorem following_lost_contact_stale_target_witness :
    (posOf mC9 1 = some ((5 : ℤ), (11 : ℤ)) ∧ 5 < manhattan (5, 11) (5, 5)) ∧
    stateOf (agent_step 5 mC9 0) 0 = some AgState.HELP ∧
    followingOf (agent_step 5 mC9 0) 0 = some (some 1) :=
  ⟨⟨by decide, by decide⟩,
   ((following_lost_contact_stale_target 5 mC9 0 1 aC9 (5, 5) (5, 11)
      (by decide) (by decide) (by decide) (by decide) (by decide) (by decide)).1
      (by decide) (by decide) (by decide) (by decide)).1,
   ((following_lost_contact_stale_target 5 mC9 0 1 aC9 (5, 5) (5, 11)
      (by decide) (by decide) (by decide) (by decide) (by decide) (by decide)).1
      (by decide) (by decide) (by decide) (by decide)).2⟩
